import Mathlib

/-!
# tinyclipboard: the X11 backend of `src/tinyclipboard.c`

A shallow embedding of the X11 half of the library: the selection request
handler, the write-side supervisor, the selection reader, and the pipe that
connects the supervisor to the background owner process.

Conventions of the embedding.

* Bytes, atoms and window ids are natural numbers; `None` is the X11 `None`
  (zero).
* `int` is 32 bits wide, `size_t` and `unsigned long` are 64 bits wide;
  arithmetic on them is written with explicit reductions.
* Calls into Xlib are recorded, in program order, as a list of `XCall`.
* Functions of the C library and of Xlib whose answer is decided outside the
  program (the atom table of the display, the `iconv` converter of the
  locale, `fork`, `waitpid`, ...) are parameters.
-/

namespace TinyClipboard

/-! ## Basic types and constants -/

abbrev Byte := Nat
abbrev Atom := Nat
abbrev Window := Nat

/-- The X11 constant `None` (no window, no atom, no property). -/
def None : Nat := 0

/-- Predefined atom `XA_STRING` of `X11/Xatom.h`. -/
def XA_STRING : Atom := 31

/-- The constant `PropModeReplace` of `X11/X.h`. -/
def PropModeReplace : Nat := 0

/-- Event type code `SelectionNotify` of `X11/X.h`. -/
def SelectionNotify : Nat := 31

/-- The constant `CurrentTime` of `X11/X.h`. -/
def CurrentTime : Nat := 0

/-- The constant `INT_MAX` of `limits.h`, for a 32-bit `int`. -/
def INT_MAX : Nat := 2 ^ 31 - 1

/-- The value of `errno` after a failing call, as far as the library sets or tests it. -/
inductive Errno where
  | EAGAIN
  | ECHILD
  | EPIPE
  | ECONNREFUSED
  | ENOTSUP
  | ECANCELED
  | EOVERFLOW
  | E2BIG
  | EILSEQ
  | EINVAL
  | EBADF
  deriving DecidableEq, Repr

/-- Sizes and byte order of the C implementation the library is compiled for.
`sizeofAtom` is `sizeof(Atom)`; `Atom` is declared by the X11 headers. -/
structure Platform where
  sizeofAtom : Nat
  bigEndian : Bool
  deriving DecidableEq, Repr

/-- The usual 64-bit little-endian Unix platform (`Atom` is `unsigned long`, 8 bytes). -/
def lp64 : Platform := { sizeofAtom := 8, bigEndian := false }

/-- Little-endian image of `v` in `w` bytes. -/
def encodeLE : Nat → Nat → List Byte
  | 0, _ => []
  | w + 1, v => (v % 256) :: encodeLE w (v / 256)

/-- Value of a little-endian byte string. -/
def decodeLE : List Byte → Nat
  | [] => 0
  | b :: bs => b + 256 * decodeLE bs

/-- Memory image of the `w`-byte unsigned object holding `v`, in native byte order. -/
def encodeNative (pf : Platform) (w v : Nat) : List Byte :=
  if pf.bigEndian then (encodeLE w v).reverse else encodeLE w v

/-- Value of a native-order memory image. -/
def decodeNative (pf : Platform) (bs : List Byte) : Nat :=
  if pf.bigEndian then decodeLE bs.reverse else decodeLE bs

/-- Memory image of an array of `Atom`, as seen through an `unsigned char*`. -/
def atomArrayBytes (pf : Platform) : List Atom → List Byte
  | [] => []
  | a :: as => encodeNative pf pf.sizeofAtom a ++ atomArrayBytes pf as

/-- Subtraction of two `size_t` values (64 bits, wrapping). -/
def sizeSub (a b : Nat) : Nat := (a % 2 ^ 64 + 2 ^ 64 - b % 2 ^ 64) % 2 ^ 64

/-- Addition of two `size_t` or `unsigned long` values (64 bits, wrapping). -/
def sizeAdd (a b : Nat) : Nat := (a + b) % 2 ^ 64

/-- Conversion of an unsigned value to `int` (32 bits, two's complement). -/
def toCInt (x : Nat) : Int :=
  if x % 2 ^ 32 < 2 ^ 31 then ((x % 2 ^ 32 : Nat) : Int) else ((x % 2 ^ 32 : Nat) : Int) - 2 ^ 32

/-! ## X11 data -/

/-- A display connection, as far as the library looks at it: its identity and
the atom table behind `XInternAtom`. -/
structure Display where
  id : Nat
  internAtom : String → Bool → Atom

/-- Xlib `XInternAtom(display, name, only_if_exists)`. -/
def XInternAtom (p_display : Display) (name : String) (only_if_exists : Bool) : Atom :=
  p_display.internAtom name only_if_exists

/-- The fields of `XSelectionRequestEvent` the library reads. -/
structure XSelectionRequestEvent where
  display : Nat
  owner : Window
  requestor : Window
  selection : Atom
  target : Atom
  property : Atom
  time : Nat
  deriving DecidableEq, Repr

/-- The fields of `XSelectionEvent` the library reads or writes. -/
structure XSelectionEvent where
  type : Nat
  display : Nat
  requestor : Window
  selection : Atom
  target : Atom
  property : Atom
  time : Nat
  deriving DecidableEq, Repr

/-- A call into Xlib that changes the server or talks to another client. -/
inductive XCall where
  /-- The call `XChangeProperty(dpy, w, property, type, format, mode, data, nelements)`;
  `data` is the object the pointer argument points to. -/
  | changeProperty (w : Window) (property type : Atom) (format mode : Nat)
      (data : List Byte) (nelements : Int)
  /-- The call `XSendEvent(dpy, w, propagate, event_mask, &event)`. -/
  | sendEvent (w : Window) (propagate : Bool) (event_mask : Nat) (event : XSelectionEvent)
  /-- A successful `XOpenDisplay(NULL)`. -/
  | openDisplay
  | closeDisplay
  /-- The call `XGetSelectionOwner(dpy, selection)`. -/
  | getSelectionOwner (selection : Atom)
  /-- The call `XCreateSimpleWindow(dpy, root, 0, 0, 1, 1, 0, 0, 0)`, with the window made. -/
  | createSimpleWindow (w : Window)
  /-- The call `XConvertSelection(dpy, selection, target, property, requestor, time)`. -/
  | convertSelection (selection target property : Atom) (requestor : Window) (time : Nat)
  /-- A call of `XNextEvent`, which waits until the next event is there. -/
  | nextEvent
  | destroyWindow (w : Window)
  /-- The call `XGetWindowProperty(dpy, w, property, long_offset, long_length, False,
  AnyPropertyType, ...)`. -/
  | getWindowProperty (w : Window) (property : Atom) (long_offset long_length : Nat)
  /-- The call `XSetSelectionOwner(dpy, selection, owner, time)`. -/
  | setSelectionOwner (selection : Atom) (owner : Window) (time : Nat)
  /-- The call `XSelectInput(dpy, w, StructureNotifyMask)`. -/
  | selectInput (w : Window)
  deriving DecidableEq, Repr

/-- The value a `changeProperty` call with 8-bit format stores: the first
`nelements` bytes of the data object, when that many are there. -/
def XCall.stored : XCall → Option (List Byte)
  | .changeProperty _ _ _ _ _ data nelements =>
      if 0 ≤ nelements ∧ nelements.toNat ≤ data.length then some (data.take nelements.toNat)
      else none
  | _ => none

/-- The element count a `changeProperty` call passes. -/
def XCall.nelements : XCall → Option Int
  | .changeProperty _ _ _ _ _ _ nelements => some nelements
  | _ => none

/-- The property writes among a list of calls. -/
def propertyWrites (calls : List XCall) : List XCall :=
  calls.filter fun c => match c with
    | .changeProperty _ _ _ _ _ _ _ => true
    | _ => false

/-- The events sent among a list of calls, each with its destination window. -/
def sentEvents : List XCall → List (Window × XSelectionEvent)
  | [] => []
  | .sendEvent w _ _ e :: cs => (w, e) :: sentEvents cs
  | _ :: cs => sentEvents cs

/-! ## Character set conversion (`iconv`) -/

/-- What a converter makes of the next character of its input. -/
inductive ConvStep where
  /-- A character of `1 + cont` input bytes that converts into `out`. -/
  | char (cont : Nat) (out : List Byte)
  /-- An input sequence that is invalid in the source character set (`EILSEQ`). -/
  | ilseq
  /-- The conversion descriptor is not valid, `iconv_open` had failed (`EBADF`). -/
  | badf
  deriving DecidableEq, Repr

/-- A conversion descriptor: the conversion of the next character of the input. -/
abbrev Converter := List Byte → ConvStep

/-- The converter of a locale whose character set is the source character
set, read byte by byte. -/
def identityConverter : Converter
  | [] => .ilseq
  | b :: _ => .char 0 [b]

/-- The converter of a locale whose character set is ASCII: a byte below 128
converts into itself, any other character of the source has no image. -/
def asciiConverter : Converter
  | [] => .ilseq
  | b :: _ => if b < 128 then .char 0 [b] else .ilseq

/-- What one call of `iconv` leaves behind. -/
structure IconvResult where
  /-- The error of a call that returned `(size_t)-1`, or none. -/
  errno : Option Errno
  /-- The input not yet converted (`*inbuf`, of length `*inbytesleft`). -/
  inbuf : List Byte
  /-- The bytes stored through `*outbuf`, in order. -/
  written : List Byte
  /-- The value of `*outbytesleft`. -/
  outbytesleft : Nat
  deriving DecidableEq, Repr

/-- One call `iconv(cd, &inbuf, &inbytesleft, &outbuf, &outbytesleft)`: convert
character by character until the input is used up, a character does not fit
the room left (`E2BIG`), the input ends inside a character (`EINVAL`) or is
invalid. The first argument bounds the number of characters and is the length
of the input. -/
def iconv (cd : Converter) : Nat → List Byte → List Byte → Nat → IconvResult
  | 0, inbuf, written, avail => ⟨none, inbuf, written, avail⟩
  | _ + 1, [], written, avail => ⟨none, [], written, avail⟩
  | fuel + 1, b :: bs, written, avail =>
    match cd (b :: bs) with
    | .char cont out =>
      if bs.length < cont then ⟨some .EINVAL, b :: bs, written, avail⟩
      else if avail < out.length then ⟨some .E2BIG, b :: bs, written, avail⟩
      else iconv cd fuel (bs.drop cont) (written ++ out) (avail - out.length)
    | .ilseq => ⟨some .EILSEQ, b :: bs, written, avail⟩
    | .badf => ⟨some .EBADF, b :: bs, written, avail⟩

/-- Number of bytes the whole input converts into, up to the first error. -/
def totalOut (cd : Converter) : Nat → List Byte → Nat
  | 0, _ => 0
  | _ + 1, [] => 0
  | fuel + 1, b :: bs =>
    match cd (b :: bs) with
    | .char cont out =>
      if bs.length < cont then 0 else out.length + totalOut cd fuel (bs.drop cont)
    | .ilseq => 0
    | .badf => 0

/-! ## Heap blocks -/

/-- The call `realloc(p, n)` on the contents of the block: the first bytes are kept. -/
def realloc (block : List Byte) (n : Nat) : List Byte :=
  block.take n ++ List.replicate (n - block.length) 0

/-- The call `memset(p + off, v, n)` on the contents of the block `p`. -/
def memset (block : List Byte) (off v n : Nat) : List Byte :=
  block.take off ++ List.replicate n v ++ block.drop (off + n)

/-- Store `bytes` into the block at offset `off`. -/
def writeAt (block : List Byte) (off : Nat) (bytes : List Byte) : List Byte :=
  block.take off ++ bytes ++ block.drop (off + bytes.length)

/-- Ways in which a run leaves defined C behaviour. -/
inductive Fault where
  /-- A pointer or an access outside the object it belongs to. -/
  | outOfBounds
  /-- The loop bound of the embedding was reached. -/
  | exhausted
  deriving DecidableEq, Repr

/-- Equality of results of fallible runs is decidable. -/
instance instDecidableEqExcept {ε α : Type} [DecidableEq ε] [DecidableEq α] :
    DecidableEq (Except ε α)
  | .ok a, .ok b => if h : a = b then isTrue (by rw [h]) else isFalse (fun h2 => h (by cases h2; rfl))
  | .error a, .error b =>
    if h : a = b then isTrue (by rw [h]) else isFalse (fun h2 => h (by cases h2; rfl))
  | .ok _, .error _ => isFalse (fun h => by cases h)
  | .error _, .ok _ => isFalse (fun h => by cases h)

/-! ## The selection request handler -/

/-- The local variables of the `XA_STRING` branch of `handle_x11_selectionrequest`. -/
structure ConvState where
  /-- Contents of the heap block `target_string`. -/
  target_string : List Byte
  /-- The pointer `outbuf`, as an offset from `target_string`. -/
  outbuf : Int
  bytes_allocated : Nat
  outbytesleft : Nat
  /-- The bytes from `source_string` on; `inbytesleft` is their number. -/
  source_string : List Byte
  deriving DecidableEq, Repr

/-- How the conversion loop ends. -/
inductive ConvOutcome where
  /-- The loop condition `inbytesleft > 0` became false. -/
  | done (st : ConvState)
  /-- The call `iconv` failed with an error other than `E2BIG`. -/
  | failed
  | fault (f : Fault)
  deriving DecidableEq, Repr

/-- The loop `while (inbytesleft > 0)` of the `XA_STRING` branch. The call is
`iconv(converter, &source_string, &inbytesleft, &outbuf, &bytes_allocated)`:
the room `iconv` is told about, and counts down, is `bytes_allocated`. A run
in which `iconv` stores outside the block, or in which `outbuf` is set to a
place outside the block, is a fault. -/
def convertLoop (cd : Converter) : Nat → ConvState → ConvOutcome
  | 0, _ => .fault .exhausted
  | fuel + 1, st =>
    if st.source_string.length = 0 then .done st
    else
      let r := iconv cd st.source_string.length st.source_string [] st.bytes_allocated
      if st.outbuf < 0 ∨ (st.target_string.length : Int) < st.outbuf + r.written.length then
        .fault .outOfBounds
      else
        let target_string := writeAt st.target_string st.outbuf.toNat r.written
        let outbuf := st.outbuf + r.written.length
        let bytes_allocated := r.outbytesleft
        match r.errno with
        | none =>
          convertLoop cd fuel
            { target_string, outbuf, bytes_allocated,
              outbytesleft := st.outbytesleft, source_string := r.inbuf }
        | some .E2BIG =>
          let target_string := memset (realloc target_string (bytes_allocated + 32)) bytes_allocated 0 32
          let outbuf : Int := (bytes_allocated : Int) - st.outbytesleft
          if outbuf < 0 ∨ (target_string.length : Int) < outbuf then .fault .outOfBounds
          else
            convertLoop cd fuel
              { target_string, outbuf, bytes_allocated := bytes_allocated + 32,
                outbytesleft := st.outbytesleft + 32, source_string := r.inbuf }
        | some _ => .failed

/-- The function `handle_x11_selectionrequest(p_display, evt, cliptext, textlen)`.
The result is the list of Xlib calls made, in order. `cd` is the descriptor
`iconv_open(nl_langinfo(CODESET), "UTF-8")`. In the `XA_STRING` branch the
function itself reads `textlen` bytes from `cliptext`; a buffer shorter than
that is a fault. -/
def handle_x11_selectionrequest (pf : Platform) (cd : Converter) (p_display : Display)
    (evt : XSelectionRequestEvent) (cliptext : List Byte) (textlen : Int) :
    Except Fault (List XCall) :=
  let utf8 := XInternAtom p_display "UTF8_STRING" true
  let targets := XInternAtom p_display "TARGETS" true
  let save_targets := XInternAtom p_display "SAVE_TARGETS" false
  let response (property : Atom) : XSelectionEvent :=
    { type := SelectionNotify, display := evt.display, requestor := evt.requestor,
      selection := evt.selection, target := evt.target, property := property,
      time := evt.time }
  if textlen > 0 ∧ evt.target = targets then
    let supported_targets := [utf8, XA_STRING, save_targets]
    .ok [ .changeProperty evt.requestor evt.property evt.target 8 PropModeReplace
            (atomArrayBytes pf supported_targets) (supported_targets.length * pf.sizeofAtom : Nat),
          .sendEvent evt.requestor false 0 (response evt.property) ]
  else if textlen > 0 ∧ evt.target = save_targets then
    .ok [ .sendEvent evt.requestor false 0 (response None) ]
  else if textlen > 0 ∧ evt.target = utf8 then
    .ok [ .changeProperty evt.requestor evt.property evt.target 8 PropModeReplace
            cliptext textlen,
          .sendEvent evt.requestor false 0 (response evt.property) ]
  else if textlen > 0 ∧ evt.target = XA_STRING then
    if cliptext.length < textlen.toNat then .error .outOfBounds
    else
      let source_string := cliptext.take textlen.toNat
      let bytes_allocated := 32
      let st : ConvState :=
        { target_string := List.replicate bytes_allocated 0, outbuf := 0,
          bytes_allocated, outbytesleft := bytes_allocated, source_string }
      match convertLoop cd (totalOut cd source_string.length source_string + 2) st with
      | .fault f => .error f
      | .failed => .ok [ .sendEvent evt.requestor false 0 (response None) ]
      | .done st =>
        .ok [ .changeProperty evt.requestor evt.property evt.target 8 PropModeReplace
                st.target_string (toCInt (sizeSub st.bytes_allocated st.outbytesleft)),
              .sendEvent evt.requestor false 0 (response evt.property) ]
  else
    .ok [ .sendEvent evt.requestor false 0 (response None) ]

/-- A display whose atom table holds the names the library uses. -/
def sampleDisplay : Display :=
  { id := 1,
    internAtom := fun name _ =>
      if name = "CLIPBOARD" then 300
      else if name = "UTF8_STRING" then 301
      else if name = "TARGETS" then 302
      else if name = "SAVE_TARGETS" then 303
      else if name = "CLIPBOARD_MANAGER" then 304
      else if name = "TINYCLIP_STORE" then 305
      else 0 }

/-- A request of window 77 for the CLIPBOARD selection in the given target. -/
def sampleRequest (target : Atom) : XSelectionRequestEvent :=
  { display := 1, owner := 5, requestor := 77, selection := 300, target := target,
    property := 305, time := 1234 }

/-! ## The supervisor: `tiny_clipnwrite` -/

/-- A call into the operating system made by `tiny_clipnwrite`. -/
inductive SysCall where
  /-- A successful `pipe(pipefds)`, with the two descriptors it gave. -/
  | pipe (rd wr : Int)
  /-- The call `fcntl(fd, F_SETFL, O_NONBLOCK)`. -/
  | fcntl (fd : Int)
  /-- A call of `fork()`, with its result. -/
  | fork (pid : Int)
  | close (fd : Int)
  /-- The call `atexit(finish_subprocess_on_exit)`. -/
  | atexit
  /-- A call of `waitpid(pid, NULL, WNOHANG)`, with its result. -/
  | waitpid (pid result : Int)
  /-- The call `write(fd, data, count)`; `data` is the object the pointer points to. -/
  | write (fd : Int) (data : List Byte) (count : Nat)
  deriving DecidableEq, Repr

/-- The bytes a `write` call puts into the descriptor: the first `count`
bytes of the data object, when that many are there. -/
def SysCall.written : SysCall → Option (Int × List Byte)
  | .write fd data count => if count ≤ data.length then some (fd, data.take count) else none
  | _ => none

/-- Whether the call is a `fork` that made a child process and returned in
the parent. -/
def SysCall.isSpawn : SysCall → Bool
  | .fork pid => pid ≠ -1 ∧ pid ≠ 0
  | _ => false

/-- Number of child processes made in a list of calls. -/
def spawns (calls : List SysCall) : Nat := calls.countP SysCall.isSpawn

/-- The file-scope and function-scope static variables of the write side:
`s_cb_pid`, and `tries`, `pipefds`, `has_registered_exit_handler` of
`tiny_clipnwrite`. -/
structure Supervisor where
  s_cb_pid : Int
  tries : Nat
  pipefds : Int × Int
  has_registered_exit_handler : Bool
  deriving DecidableEq, Repr

/-- The static variables at program start. -/
def Supervisor.initial : Supervisor :=
  { s_cb_pid := 0, tries := 0, pipefds := (0, 0), has_registered_exit_handler := false }

/-- What is decided outside the program during a call of `tiny_clipnwrite`.
The call is recursive; the index is the depth of the activation that asks,
and every activation asks each question at most once. -/
structure WriteEnv where
  /-- Whether `XOpenDisplay(NULL)` gives a connection. -/
  XOpenDisplay : Nat → Bool
  /-- The result of `write_to_clipboard_manager(text, len)`. -/
  write_to_clipboard_manager : Nat → Bool
  /-- The descriptors `pipe` stores, or none when it fails. -/
  pipe : Nat → Option (Int × Int)
  /-- The result of `fork()`. -/
  fork : Nat → Int
  /-- The result of `waitpid(s_cb_pid, NULL, WNOHANG)`. -/
  waitpid : Nat → Int

/-- Memory image of an `int` (4 bytes, two's complement, native order). -/
def intBytes (pf : Platform) (v : Int) : List Byte :=
  encodeNative pf 4 (v % 2 ^ 32).toNat

/-- Conversion of an `int` to `size_t`. -/
def intToSize (v : Int) : Nat := (v % 2 ^ 64).toNat

/-- How an activation of `tiny_clipnwrite` ends. -/
inductive WriteOutcome where
  /-- The call returned `ret`; `errno` is the value the call set, if it set one. -/
  | returned (ret : Int) (errno : Option Errno) (st : Supervisor) (calls : List SysCall)
  /-- The call `fork` returned 0: this process is the child, which goes on as
  `own_x11_clipboard(filedes)` and ends in `exit(0)`. -/
  | child (filedes : Int) (st : Supervisor) (calls : List SysCall)
  /-- The bound on the recursion depth of the embedding was reached. -/
  | exhausted
  deriving DecidableEq, Repr

/-- The function `tiny_clipnwrite(text, len)`, with a bound on the recursion
depth, the depth of this activation, the static variables and the calls made
so far. -/
def tiny_clipnwrite_rec (pf : Platform) (env : WriteEnv) (text : List Byte) (len : Int) :
    Nat → Nat → Supervisor → List SysCall → WriteOutcome
  | 0, _, _, _ => .exhausted
  | fuel + 1, depth, st, calls =>
    if env.XOpenDisplay depth = false then .returned (-1) (some .ECONNREFUSED) st calls
    else if env.write_to_clipboard_manager depth = true then .returned 0 none st calls
    else if st.s_cb_pid = 0 then
      let tries := st.tries
      let st := { st with tries := (st.tries + 1) % 2 ^ 16 }
      if tries > 3 then .returned (-1) (some .ECHILD) { st with tries := 0 } calls
      else
        match env.pipe depth with
        | none => .returned (-1) (some .EPIPE) st calls
        | some (rd, wr) =>
          let st := { st with pipefds := (rd, wr) }
          let calls := calls ++ [.pipe rd wr, .fcntl rd]
          let pid := env.fork depth
          let st := { st with s_cb_pid := pid }
          let calls := calls ++ [.fork pid]
          if pid = -1 then
            .returned (-1) (some .ECHILD) { st with s_cb_pid := 0 }
              (calls ++ [.close rd, .close wr])
          else if pid = 0 then .child rd st (calls ++ [.close wr])
          else
            let calls := calls ++ [.close rd]
            if st.has_registered_exit_handler = false then
              tiny_clipnwrite_rec pf env text len fuel (depth + 1)
                { st with has_registered_exit_handler := true } (calls ++ [.atexit])
            else tiny_clipnwrite_rec pf env text len fuel (depth + 1) st calls
    else
      let alive := env.waitpid depth
      let calls := calls ++ [.waitpid st.s_cb_pid alive]
      if alive ≠ 0 then
        tiny_clipnwrite_rec pf env text len fuel (depth + 1) { st with s_cb_pid := 0 }
          (calls ++ [.close st.pipefds.2])
      else
        .returned 0 none { st with tries := 0 }
          (calls ++ [.write st.pipefds.2 (intBytes pf len) 4,
                     .write st.pipefds.2 text (intToSize len)])

/-- The function `tiny_clipnwrite(text, len)` as the program calls it. Ten
activations are the most a call can need. -/
def tiny_clipnwrite (pf : Platform) (env : WriteEnv) (text : List Byte) (len : Int)
    (st : Supervisor) : WriteOutcome :=
  tiny_clipnwrite_rec pf env text len 10 0 st []

/-- The calls an outcome has made. -/
def WriteOutcome.calls : WriteOutcome → List SysCall
  | .returned _ _ _ calls => calls
  | .child _ _ calls => calls
  | .exhausted => []

/-- Number of activations a call entered with these static variables can need. -/
def Supervisor.depthBound (st : Supervisor) : Nat :=
  if st.s_cb_pid = 0 then 2 * (4 - st.tries) + 1 else 2 * (4 - st.tries) + 2

/-- An environment in which the manager bridge always fails, pipes and forks
always succeed and every child is reported dead at once. -/
def hostileEnv : WriteEnv :=
  { XOpenDisplay := fun _ => true,
    write_to_clipboard_manager := fun _ => false,
    pipe := fun depth => some (2 * depth + 3, 2 * depth + 4),
    fork := fun depth => 1000 + depth,
    waitpid := fun _ => 1000 }

/-- An environment in which the first child is reported dead and the second alive. -/
def respawnEnv : WriteEnv :=
  { XOpenDisplay := fun _ => true,
    write_to_clipboard_manager := fun _ => false,
    pipe := fun _ => some (5, 6),
    fork := fun _ => 4242,
    waitpid := fun depth => if depth = 0 then 4141 else 0 }

/-! ## The selection reader: `tiny_clipread` -/

/-- An event as `XNextEvent` hands it to the program, by its `type`. -/
inductive XEvent where
  | selectionRequest (e : XSelectionRequestEvent)
  | selectionClear
  | selectionNotify (e : XSelectionEvent)
  | destroyNotify
  /-- An event of any other type. -/
  | other (type : Nat)
  deriving DecidableEq, Repr

/-- What a successful `XGetWindowProperty` returns. Xlib puts a NUL byte
after `data`. -/
structure PropertyReply where
  actual_type : Atom
  actual_format : Nat
  nitems : Nat
  /-- The value of `bytes_after_return`, an `unsigned long`. -/
  bytes_after : Nat
  data : List Byte
  deriving DecidableEq, Repr

/-- The arguments of a call of `XConvertSelection`. -/
structure ConversionRequest where
  selection : Atom
  target : Atom
  property : Atom
  requestor : Window
  time : Nat
  deriving DecidableEq, Repr

/-- What is decided outside the program during a call of `tiny_clipread`.
What happens after the conversion request may depend on that request. -/
structure ReadEnv where
  /-- The connection `XOpenDisplay(NULL)` gives, or none. -/
  XOpenDisplay : Option Display
  XGetSelectionOwner : Atom → Window
  /-- The window `XCreateSimpleWindow` makes. -/
  XCreateSimpleWindow : Window
  /-- The events `XNextEvent` delivers, in order; after them it waits for ever. -/
  events : ConversionRequest → List XEvent
  /-- The reply to the n-th call of `XGetWindowProperty(dpy, w, property, long_offset,
  long_length, ...)`, or none when the call does not return `Success`. -/
  XGetWindowProperty : ConversionRequest → Nat → Window → Atom → Nat → Nat → Option PropertyReply

/-- How a call of `tiny_clipread` ends. -/
inductive ReadOutcome where
  /-- The call returned `buffer` (none for `NULL`); `len` is the value stored
  through the argument, `errno` the value the call set, when it did. -/
  | returned (buffer : Option (List Byte)) (len : Option Int) (errno : Option Errno)
      (calls : List XCall)
  /-- The call waits in `XNextEvent` for an event that never comes. -/
  | blocked (calls : List XCall)
  | fault (f : Fault) (calls : List XCall)
  deriving DecidableEq, Repr

/-- The loop `for(;;)` of `tiny_clipread`: take events until one is a
`SelectionNotify`. The result is that event, or nothing when the events run
out, and the calls made. -/
def waitSelectionNotify : List XEvent → List XCall → Option XSelectionEvent × List XCall
  | [], calls => (none, calls ++ [.nextEvent])
  | .selectionNotify e :: _, calls => (some e, calls ++ [.nextEvent])
  | _ :: rest, calls => waitSelectionNotify rest (calls ++ [.nextEvent])

/-- The call `strncpy(dest, src, n)` for a NUL-terminated `src`: the `n`
bytes stored into `dest`. -/
def strncpy (src : List Byte) (n : Nat) : List Byte :=
  (src.takeWhile fun b => b ≠ 0).take n ++
    List.replicate (n - ((src.takeWhile fun b => b ≠ 0).take n).length) 0

/-- The function `tiny_clipread(len)`, called with a pointer to an `int`. -/
def tiny_clipread (env : ReadEnv) : ReadOutcome :=
  match env.XOpenDisplay with
  | none => .returned none none (some .ECONNREFUSED) []
  | some p_display =>
    let clipboard := XInternAtom p_display "CLIPBOARD" false
    let utf8 := XInternAtom p_display "UTF8_STRING" true
    let store_prop := XInternAtom p_display "TINYCLIP_STORE" false
    let calls := [XCall.openDisplay, .getSelectionOwner clipboard]
    if env.XGetSelectionOwner clipboard = None then
      .returned none none (some .EAGAIN) (calls ++ [.closeDisplay])
    else
      let window := env.XCreateSimpleWindow
      let request : ConversionRequest :=
        { selection := clipboard, target := utf8, property := store_prop,
          requestor := window, time := CurrentTime }
      let calls := calls ++ [.createSimpleWindow window,
        .convertSelection clipboard utf8 store_prop window CurrentTime]
      match waitSelectionNotify (env.events request) calls with
      | (none, calls) => .blocked calls
      | (some evt, calls) =>
        if evt.property = None then
          .returned none none (some .ENOTSUP) (calls ++ [.destroyWindow window, .closeDisplay])
        else
          let calls := calls ++ [.getWindowProperty window store_prop 0 0]
          match env.XGetWindowProperty request 0 window store_prop 0 0 with
          | none =>
            .returned none none (some .ECANCELED)
              (calls ++ [.destroyWindow window, .closeDisplay])
          | some probe =>
            let bytes_left := probe.bytes_after
            if sizeAdd bytes_left 1 > INT_MAX then
              .returned none none (some .EOVERFLOW)
                (calls ++ [.destroyWindow window, .closeDisplay])
            else
              let outbuf := List.replicate (sizeAdd bytes_left 1) 0
              let bytes := toCInt bytes_left
              let calls := calls ++ [.getWindowProperty window store_prop 0 bytes_left]
              match env.XGetWindowProperty request 1 window store_prop 0 bytes_left with
              | none =>
                .returned none none (some .ECANCELED)
                  (calls ++ [.destroyWindow window, .closeDisplay])
              | some fetched =>
                if outbuf.length < intToSize bytes then .fault .outOfBounds calls
                else
                  .returned
                    (some (writeAt outbuf 0 (strncpy (fetched.data ++ [0]) (intToSize bytes))))
                    (some bytes) none (calls ++ [.destroyWindow window, .closeDisplay])

/-- An owner that answers with a property whose length probe reports the
given number of bytes. -/
def probeEnv (bytes_after : Nat) : ReadEnv :=
  { XOpenDisplay := some sampleDisplay,
    XGetSelectionOwner := fun _ => 5,
    XCreateSimpleWindow := 77,
    events := fun r =>
      [.selectionNotify
        { type := SelectionNotify, display := 1, requestor := r.requestor,
          selection := r.selection, target := r.target, property := r.property,
          time := r.time }],
    XGetWindowProperty := fun _ _ _ _ _ _ =>
      some { actual_type := 301, actual_format := 8, nitems := 0, bytes_after := bytes_after,
             data := [] } }

/-- A display on which no client owns any selection. -/
def noOwnerEnv : ReadEnv :=
  { XOpenDisplay := some sampleDisplay,
    XGetSelectionOwner := fun _ => None,
    XCreateSimpleWindow := 77,
    events := fun _ => [],
    XGetWindowProperty := fun _ _ _ _ _ _ => none }

/-! ## The pipe and `get_clipboard_text` -/

/-- What a call of `read(filedes, buf, count)` gives: its return value, the
value of `errno` after a failing call, and the bytes stored into the buffer. -/
structure IoRead where
  ret : Int
  errno : Option Errno
  data : List Byte
  deriving DecidableEq, Repr

/-- The bytes written into a pipe and not yet read. -/
abbrev Pipe := List Byte

/-- The call `read` on the read end of a pipe that has `O_NONBLOCK` set and
whose write end is open: as many of the `count` bytes as are there, or
`EAGAIN` when none is. -/
def pipeRead (pipe : Pipe) (count : Nat) : IoRead × Pipe :=
  if count = 0 then ({ ret := 0, errno := none, data := [] }, pipe)
  else if pipe = [] then ({ ret := -1, errno := some .EAGAIN, data := [] }, pipe)
  else ({ ret := (pipe.take count).length, errno := none, data := pipe.take count },
        pipe.drop count)

/-- The `int` a 4-byte memory image holds. -/
def intOfBytes (pf : Platform) (bs : List Byte) : Int := toCInt (decodeNative pf bs)

/-- The function `get_clipboard_text(filedes, &p_str, &p_len)`. The file
behind `filedes` is a state of type `σ` with its `read`; the result is the
file afterwards and the new values of `*p_str` (none for `NULL`) and `*p_len`.
The size `*p_len + 1` of the block is computed in `int`: when it is negative
or does not fit `int`, there is no block of that size and `memset` stores
through a pointer to no object. -/
def get_clipboard_text {σ : Type} (read : σ → Nat → IoRead × σ) (pf : Platform) (filedes : σ)
    (p_str : Option (List Byte)) (p_len : Int) : Except Fault (σ × Option (List Byte) × Int) :=
  let header := read filedes 4
  if header.1.ret < 0 ∧ header.1.errno = some .EAGAIN then .ok (header.2, p_str, p_len)
  else if header.1.ret < 0 ∨ header.1.ret ≠ 4 then .ok (header.2, none, 0)
  else
    let p_len := intOfBytes pf header.1.data
    if p_len + 1 < 0 ∨ (INT_MAX : Int) < p_len + 1 then .error .outOfBounds
    else
      let p_str := List.replicate (p_len + 1).toNat 0
      let payload := read header.2 (intToSize p_len)
      if payload.1.ret ≤ 0 ∨ payload.1.ret ≠ p_len then .ok (payload.2, none, 0)
      else .ok (payload.2, some (writeAt p_str 0 payload.1.data), p_len)

/-! ## The background owner: `own_x11_clipboard` -/

/-- The variables of the worker process that the main loop of
`own_x11_clipboard` changes: `cliptext` (none for `NULL`), `textlen`,
`terminate` and the file-scope `s_clipowner_window`. -/
structure Worker where
  cliptext : Option (List Byte)
  textlen : Int
  s_clipowner_window : Window
  terminate : Bool
  deriving DecidableEq, Repr

/-- The worker when it enters its main loop, owning `CLIPBOARD` with `window`. -/
def Worker.start (window : Window) : Worker :=
  { cliptext := none, textlen := 0, s_clipowner_window := window, terminate := false }

/-- One turn of the main loop of `own_x11_clipboard` on the event `evt`. -/
def own_x11_clipboard_step {σ : Type} (read : σ → Nat → IoRead × σ) (pf : Platform)
    (cd : Converter) (p_display : Display) (filedes : σ) (w : Worker) (evt : XEvent) :
    Except Fault (σ × Worker × List XCall) :=
  match evt with
  | .selectionRequest e =>
    match get_clipboard_text read pf filedes w.cliptext w.textlen with
    | .error f => .error f
    | .ok (filedes, cliptext, textlen) =>
      match handle_x11_selectionrequest pf cd p_display e (cliptext.getD []) textlen with
      | .error f => .error f
      | .ok calls => .ok (filedes, { w with cliptext := cliptext, textlen := textlen }, calls)
  | .selectionClear => .ok (filedes, w, [.destroyWindow w.s_clipowner_window])
  | .destroyNotify => .ok (filedes, { w with s_clipowner_window := None, terminate := true }, [])
  | _ => .ok (filedes, w, [])

/-! ## The manager bridge: `write_to_clipboard_manager` -/

/-- What is decided outside the program during a call of
`write_to_clipboard_manager`. -/
structure BridgeEnv where
  XOpenDisplay : Option Display
  XGetSelectionOwner : Atom → Window
  XCreateSimpleWindow : Window
  /-- The events `XNextEvent` delivers, in order; after them it waits for ever. -/
  events : ConversionRequest → List XEvent

/-- How a call of `write_to_clipboard_manager` ends. -/
inductive BridgeOutcome where
  | returned (result : Bool) (calls : List XCall)
  /-- The call waits in `XNextEvent` for an event that never comes. -/
  | blocked (calls : List XCall)
  | fault (f : Fault) (calls : List XCall)
  deriving DecidableEq, Repr

/-- The main loop of `write_to_clipboard_manager` and the cleanup after it. -/
def bridgeLoop (pf : Platform) (cd : Converter) (p_display : Display) (window : Window)
    (save_targets : Atom) (cliptext : List Byte) (len : Int) :
    List XEvent → List XCall → BridgeOutcome
  | [], calls => .blocked (calls ++ [.nextEvent])
  | .selectionRequest e :: rest, calls =>
    match handle_x11_selectionrequest pf cd p_display e cliptext len with
    | .error f => .fault f (calls ++ [.nextEvent])
    | .ok answer =>
      bridgeLoop pf cd p_display window save_targets cliptext len rest
        (calls ++ [.nextEvent] ++ answer)
  | .selectionClear :: _, calls =>
    .returned true (calls ++ [.nextEvent, .destroyWindow window, .closeDisplay])
  | .selectionNotify e :: rest, calls =>
    if e.target = save_targets then
      .returned (decide (e.property = None))
        (calls ++ [.nextEvent, .destroyWindow window, .closeDisplay])
    else bridgeLoop pf cd p_display window save_targets cliptext len rest (calls ++ [.nextEvent])
  | _ :: rest, calls =>
    bridgeLoop pf cd p_display window save_targets cliptext len rest (calls ++ [.nextEvent])

/-- The function `write_to_clipboard_manager(cliptext, len)`. -/
def write_to_clipboard_manager (pf : Platform) (cd : Converter) (env : BridgeEnv)
    (cliptext : List Byte) (len : Int) : BridgeOutcome :=
  match env.XOpenDisplay with
  | none => .returned false []
  | some p_display =>
    let clipboard := XInternAtom p_display "CLIPBOARD" false
    let clipboard_manager := XInternAtom p_display "CLIPBOARD_MANAGER" false
    let save_targets := XInternAtom p_display "SAVE_TARGETS" false
    let calls := [XCall.openDisplay, .getSelectionOwner clipboard_manager]
    if env.XGetSelectionOwner clipboard_manager = None then
      .returned false (calls ++ [.closeDisplay])
    else
      let window := env.XCreateSimpleWindow
      let request : ConversionRequest :=
        { selection := clipboard_manager, target := save_targets, property := None,
          requestor := window, time := CurrentTime }
      bridgeLoop pf cd p_display window save_targets cliptext len (env.events request)
        (calls ++ [.createSimpleWindow window, .setSelectionOwner clipboard window CurrentTime,
          .convertSelection clipboard_manager save_targets None window CurrentTime])

/-! ## The X server between two clients -/

/-- The `SelectionRequest` event the server sends to the owner of a selection
for a conversion request. -/
def selectionRequestOf (display : Nat) (owner : Window) (r : ConversionRequest) :
    XSelectionRequestEvent :=
  { display := display, owner := owner, requestor := r.requestor, selection := r.selection,
    target := r.target, property := r.property, time := r.time }

/-- The events a list of calls sends to the client of the window `w`, as
`XNextEvent` hands them over. -/
def deliver (calls : List XCall) (w : Window) : List XEvent :=
  ((sentEvents calls).filter fun p => p.1 = w).map fun p =>
    if p.2.type = SelectionNotify then .selectionNotify p.2 else .other p.2.type

/-- The value of the property `property` of the window `w` after a list of
calls, starting from `value`: each well-formed replacing write sets it. -/
def propertyValue (value : Option (List Byte)) (w : Window) (property : Atom) :
    List XCall → Option (List Byte)
  | [] => value
  | .changeProperty w2 property2 type format mode data nelements :: rest =>
    if w2 = w ∧ property2 = property then
      match (XCall.changeProperty w2 property2 type format mode data nelements).stored with
      | some bytes => propertyValue (some bytes) w property rest
      | none => propertyValue value w property rest
    else propertyValue value w property rest
  | _ :: rest => propertyValue value w property rest

/-- The reply of the server to `GetProperty` with `long_offset`, `long_length`
on an 8-bit property holding `value` (none: no such property). -/
def xGetWindowProperty (type : Atom) (value : Option (List Byte)) (long_offset long_length : Nat) :
    PropertyReply :=
  match value with
  | none => { actual_type := None, actual_format := 0, nitems := 0, bytes_after := 0, data := [] }
  | some bytes =>
    let shown := (bytes.drop (4 * long_offset)).take (4 * long_length)
    { actual_type := type, actual_format := 8, nitems := shown.length,
      bytes_after := bytes.length - (4 * long_offset + shown.length), data := shown }

/-- The parts of a scenario with one writer, its worker and one reader that
are chosen outside the program. -/
structure World where
  /-- The atom table of the server, shared by all connections. -/
  display : Display
  /-- The descriptors `pipe` gives the writer. -/
  pipefds : Int × Int
  /-- The process id `fork` gives the writer. -/
  pid : Int
  /-- The window with which the worker owns `CLIPBOARD`. -/
  workerWindow : Window
  /-- The window the reader creates. -/
  readerWindow : Window
  /-- The number of bytes the pipe between writer and worker holds (65536 on
  Linux). -/
  pipeCapacity : Nat

/-- The server has given different atoms to different names, real windows are
not `None`, and `fork` returned in the parent. -/
def World.WellFormed (w : World) : Prop :=
  XInternAtom w.display "UTF8_STRING" true ≠ XInternAtom w.display "TARGETS" true ∧
  XInternAtom w.display "UTF8_STRING" true ≠ XInternAtom w.display "SAVE_TARGETS" false ∧
  XInternAtom w.display "TINYCLIP_STORE" false ≠ None ∧
  w.workerWindow ≠ None ∧ w.pid ≠ 0 ∧ w.pid ≠ -1

instance (w : World) : Decidable w.WellFormed := by
  unfold World.WellFormed
  exact inferInstance

/-- The bytes a list of calls hands to `write` for the descriptor `fd`, in order. -/
def writtenBytes (calls : List SysCall) (fd : Int) : List Byte :=
  (((calls.filterMap SysCall.written).filter fun p => p.1 = fd).map fun p => p.2).flatten

/-- The bytes in the pipe behind the descriptor `fd` after a list of calls,
when nothing has been read from it yet: the pipe holds at most `capacity`
bytes, and a `write` whose bytes do not all fit puts in what fits and waits
with the rest until the reader has made room. This is what the worker finds
when it turns to the pipe; bytes the waiting writer adds while the worker
reads are not in it. -/
def pipeContents (capacity : Nat) (calls : List SysCall) (fd : Int) : Pipe :=
  (writtenBytes calls fd).take capacity

/-- The worker's answer to the conversion request `r`, with `pipe` behind its
descriptor: the Xlib calls of one turn of its main loop. -/
def workerAnswer (pf : Platform) (cd : Converter) (w : World) (pipe : Pipe)
    (r : ConversionRequest) : List XCall :=
  match own_x11_clipboard_step pipeRead pf cd w.display pipe (Worker.start w.workerWindow)
      (.selectionRequest (selectionRequestOf w.display.id w.workerWindow r)) with
  | .ok (_, _, calls) => calls
  | .error _ => []

/-- The scenario of a write followed by a read: no clipboard manager is
registered; the first call of `tiny_clipnwrite(text, len)` in the writer
makes the worker, which takes ownership of `CLIPBOARD`; then another client
calls `tiny_clipread`, and the worker serves its request from the pipe, which
holds what the writer has written up to the capacity of the pipe. -/
def writeThenRead (pf : Platform) (cd : Converter) (w : World) (text : List Byte) (len : Int) :
    ReadOutcome :=
  let bridgeEnv : BridgeEnv :=
    { XOpenDisplay := some w.display, XGetSelectionOwner := fun _ => None,
      XCreateSimpleWindow := None, events := fun _ => [] }
  match write_to_clipboard_manager pf cd bridgeEnv text len with
  | .blocked calls => .blocked calls
  | .fault f calls => .fault f calls
  | .returned bridge _ =>
    let writeEnv : WriteEnv :=
      { XOpenDisplay := fun _ => true, write_to_clipboard_manager := fun _ => bridge,
        pipe := fun _ => some w.pipefds, fork := fun _ => w.pid, waitpid := fun _ => 0 }
    let written := tiny_clipnwrite pf writeEnv text len Supervisor.initial
    let pipe := pipeContents w.pipeCapacity written.calls w.pipefds.2
    let clipboard := XInternAtom w.display "CLIPBOARD" false
    tiny_clipread
      { XOpenDisplay := some w.display,
        XGetSelectionOwner := fun selection =>
          if selection = clipboard then w.workerWindow else None,
        XCreateSimpleWindow := w.readerWindow,
        events := fun r => deliver (workerAnswer pf cd w pipe r) r.requestor,
        XGetWindowProperty := fun r _ window property long_offset long_length =>
          some (xGetWindowProperty r.target
            (propertyValue none window property (workerAnswer pf cd w pipe r))
            long_offset long_length) }

/-- A scenario on the sample display. -/
def sampleWorld : World :=
  { display := sampleDisplay, pipefds := (5, 6), pid := 4242, workerWindow := 5,
    readerWindow := 77, pipeCapacity := 65536 }

/-! ## The main loops, event by event -/

/-- Whether the event is a `DestroyNotify`. -/
def XEvent.isDestroyNotify : XEvent → Bool
  | .destroyNotify => true
  | _ => false

/-- Whether the event is a `SelectionRequest`. -/
def XEvent.isSelectionRequest : XEvent → Bool
  | .selectionRequest _ => true
  | _ => false

/-- The bytes of a sequence of frames in a pipe, oldest first: for each
payload the image of its length and then the payload. -/
def pipeFrames (pf : Platform) : List (List Byte) → Pipe
  | [] => []
  | payload :: rest => intBytes pf payload.length ++ payload ++ pipeFrames pf rest

/-- An environment of the writer without manager, in which the worker is alive. -/
def aliveEnv : WriteEnv :=
  { XOpenDisplay := fun _ => true,
    write_to_clipboard_manager := fun _ => false,
    pipe := fun _ => some (5, 6),
    fork := fun _ => 4242,
    waitpid := fun _ => 0 }

/-- The static variables of a writer whose worker 4242 reads from the pipe
behind descriptor 6. -/
def aliveSupervisor : Supervisor :=
  { s_cb_pid := 4242, tries := 0, pipefds := (5, 6), has_registered_exit_handler := true }

/-- A file whose reads are scripted: each read takes the next answer, and a
read after the last answer would block. -/
def scriptedRead (script : List IoRead) (_ : Nat) : IoRead × List IoRead :=
  match script with
  | [] => ({ ret := -1, errno := some .EAGAIN, data := [] }, [])
  | r :: rest => (r, rest)

theorem iconv_outbytesleft_le (cd : Converter) (fuel : Nat) (inbuf written : List Byte)
    (avail : Nat) : (iconv cd fuel inbuf written avail).outbytesleft ≤ avail := by
  induction fuel generalizing inbuf written avail with
  | zero => simp [iconv]
  | succ fuel ih =>
    cases inbuf with
    | nil => simp [iconv]
    | cons b bs =>
      simp only [iconv]
      split
      · split
        · exact le_refl _
        · split
          · exact le_refl _
          · exact le_trans (ih _ _ _) (Nat.sub_le _ _)
      · exact le_refl _
      · exact le_refl _

theorem iconv_success_inbuf (cd : Converter) (fuel : Nat) (inbuf written : List Byte)
    (avail : Nat) (hfuel : inbuf.length ≤ fuel)
    (h : (iconv cd fuel inbuf written avail).errno = none) :
    (iconv cd fuel inbuf written avail).inbuf = [] := by
  induction fuel generalizing inbuf written avail with
  | zero =>
    have : inbuf = [] := List.length_eq_zero.mp (Nat.le_zero.mp hfuel)
    simp [iconv, this]
  | succ fuel ih =>
    cases inbuf with
    | nil => simp [iconv]
    | cons b bs =>
      simp only [iconv] at h ⊢
      cases hcd : cd (b :: bs) with
      | char cont out =>
        rw [hcd] at h
        simp only at h ⊢
        by_cases h1 : bs.length < cont
        · simp [h1] at h
        · by_cases h2 : avail < out.length
          · simp [h1, h2] at h
          · rw [if_neg h1, if_neg h2] at h ⊢
            apply ih _ _ _ _ h
            simp only [List.length_drop, List.length_cons] at hfuel ⊢
            omega
      | ilseq => rw [hcd] at h; simp at h
      | badf => rw [hcd] at h; simp at h

theorem totalOut_mono (cd : Converter) (f g : Nat) (hfg : f ≤ g) (inbuf : List Byte) :
    totalOut cd f inbuf ≤ totalOut cd g inbuf := by
  induction f generalizing g inbuf with
  | zero => simp [totalOut]
  | succ f ih =>
    obtain ⟨g, rfl⟩ : ∃ k, g = k + 1 := ⟨g - 1, by omega⟩
    cases inbuf with
    | nil => simp [totalOut]
    | cons b bs =>
      simp only [totalOut]
      split
      · split
        · exact le_refl _
        · exact Nat.add_le_add_left (ih g (by omega) _) _
      · exact le_refl _
      · exact le_refl _

theorem iconv_totalOut_le (cd : Converter) (fuel : Nat) (inbuf written : List Byte)
    (avail : Nat) (hfuel : inbuf.length ≤ fuel) :
    totalOut cd (iconv cd fuel inbuf written avail).inbuf.length
        (iconv cd fuel inbuf written avail).inbuf ≤ totalOut cd fuel inbuf := by
  induction fuel generalizing inbuf written avail with
  | zero =>
    have : inbuf = [] := List.length_eq_zero.mp (Nat.le_zero.mp hfuel)
    simp [iconv, this, totalOut]
  | succ fuel ih =>
    cases inbuf with
    | nil => simp [iconv, totalOut]
    | cons b bs =>
      have hmono := totalOut_mono cd (b :: bs).length (fuel + 1) hfuel (b :: bs)
      simp only [iconv]
      split
      · rename_i cont out hcd
        split
        · exact hmono
        · split
          · exact hmono
          · rename_i h1 h2
            have hlen : (bs.drop cont).length ≤ fuel := by
              simp only [List.length_drop, List.length_cons] at hfuel ⊢
              omega
            refine le_trans (ih _ _ _ hlen) ?_
            simp only [totalOut, hcd, if_neg h1]
            omega
      · exact hmono
      · exact hmono

theorem iconv_e2big_lt (cd : Converter) (fuel : Nat) (inbuf written : List Byte)
    (avail : Nat) (h : (iconv cd fuel inbuf written avail).errno = some .E2BIG) :
    avail < totalOut cd fuel inbuf := by
  induction fuel generalizing inbuf written avail with
  | zero => simp [iconv] at h
  | succ fuel ih =>
    cases inbuf with
    | nil => simp [iconv] at h
    | cons b bs =>
      simp only [iconv] at h
      simp only [totalOut]
      cases hcd : cd (b :: bs) with
      | char cont out =>
        rw [hcd] at h
        simp only at h ⊢
        by_cases h1 : bs.length < cont
        · simp [h1] at h
        · rw [if_neg h1] at h ⊢
          by_cases h2 : avail < out.length
          · omega
          · rw [if_neg h2] at h
            have := ih _ _ _ h
            omega
      | ilseq => rw [hcd] at h; simp at h
      | badf => rw [hcd] at h; simp at h

/-- The conversion loop ends: with the bound the handler gives it, it never
runs into the loop bound of the embedding. -/
theorem convertLoop_not_exhausted (cd : Converter) (fuel : Nat) (st : ConvState)
    (hinv : st.bytes_allocated = st.outbytesleft)
    (hfuel : 2 + (totalOut cd st.source_string.length st.source_string - st.bytes_allocated)
      ≤ fuel) :
    convertLoop cd fuel st ≠ .fault .exhausted := by
  induction fuel generalizing st with
  | zero => omega
  | succ fuel ih =>
    unfold convertLoop
    split
    · simp
    · simp only
      split
      · simp
      · split
        · rename_i hnone
          have hin := iconv_success_inbuf cd st.source_string.length st.source_string []
            st.bytes_allocated (le_refl _) hnone
          obtain ⟨k, rfl⟩ : ∃ k, fuel = k + 1 := ⟨fuel - 1, by omega⟩
          unfold convertLoop
          simp [hin]
        · rename_i hbig
          split
          · simp
          · rename_i hoff
            have hle := iconv_outbytesleft_le cd st.source_string.length st.source_string []
              st.bytes_allocated
            have hlt := iconv_e2big_lt cd _ _ _ _ hbig
            have hT := iconv_totalOut_le cd st.source_string.length st.source_string []
              st.bytes_allocated (le_refl _)
            apply ih
            · simp only
              push_neg at hoff
              omega
            · simp only
              push_neg at hoff
              omega
        · simp

/-- What `iconv` stores and the room it leaves add up to the room it had. -/
theorem iconv_written_length (cd : Converter) (fuel : Nat) (inbuf written : List Byte)
    (avail : Nat) :
    (iconv cd fuel inbuf written avail).written.length +
        (iconv cd fuel inbuf written avail).outbytesleft = written.length + avail := by
  induction fuel generalizing inbuf written avail with
  | zero => simp [iconv]
  | succ fuel ih =>
    cases inbuf with
    | nil => simp [iconv]
    | cons b bs =>
      simp only [iconv]
      split
      · split
        · rfl
        · split
          · rfl
          · rename_i h1 h2
            rw [ih]
            simp only [List.length_append]
            omega
      · rfl
      · rfl

/-- The first turn of the conversion loop on a fresh 32-byte buffer: the call
of `iconv` stores inside the buffer; when it converts the whole input the loop
is done, and when it fails with an error other than `E2BIG` the loop gives
up. -/
theorem convertLoop_start (cd : Converter) (fuel : Nat) (source : List Byte)
    (hsource : source ≠ []) :
    ((iconv cd source.length source [] 32).errno = none →
      convertLoop cd (fuel + 2)
          { target_string := List.replicate 32 0, outbuf := 0, bytes_allocated := 32,
            outbytesleft := 32, source_string := source } =
        .done
          { target_string :=
              writeAt (List.replicate 32 0) 0 (iconv cd source.length source [] 32).written,
            outbuf := ((iconv cd source.length source [] 32).written.length : Int),
            bytes_allocated := (iconv cd source.length source [] 32).outbytesleft,
            outbytesleft := 32, source_string := [] }) ∧
    (∀ e, (iconv cd source.length source [] 32).errno = some e → e ≠ .E2BIG →
      convertLoop cd (fuel + 2)
          { target_string := List.replicate 32 0, outbuf := 0, bytes_allocated := 32,
            outbytesleft := 32, source_string := source } = .failed) := by
  have hlen : source.length ≠ 0 := fun h => hsource (List.length_eq_zero.mp h)
  have hroom := iconv_written_length cd source.length source [] 32
  simp only [List.length_nil, Nat.zero_add] at hroom
  have hin : ¬ ((0 : Int) < 0 ∨
      ((List.replicate 32 (0 : Byte)).length : Int) <
        0 + ((iconv cd source.length source [] 32).written.length : Int)) := by
    simp only [List.length_replicate]
    omega
  constructor
  · intro hnone
    have hrest := iconv_success_inbuf cd source.length source [] 32 (le_refl _) hnone
    unfold convertLoop
    simp only [hlen, if_false, hin, hnone, hrest]
    unfold convertLoop
    simp
  · intro e herr hbig
    unfold convertLoop
    simp only [hlen, if_false, hin, herr]

/-- The first turn of the conversion loop when `iconv` has stored something
and then runs out of room: the new place of `outbuf` is before the buffer. -/
theorem convertLoop_start_e2big (cd : Converter) (fuel : Nat) (source : List Byte)
    (hsource : source ≠ [])
    (hbig : (iconv cd source.length source [] 32).errno = some .E2BIG)
    (hwritten : (iconv cd source.length source [] 32).written ≠ []) :
    convertLoop cd (fuel + 2)
        { target_string := List.replicate 32 0, outbuf := 0, bytes_allocated := 32,
          outbytesleft := 32, source_string := source } = .fault .outOfBounds := by
  have hlen : source.length ≠ 0 := fun h => hsource (List.length_eq_zero.mp h)
  have hroom := iconv_written_length cd source.length source [] 32
  simp only [List.length_nil, Nat.zero_add] at hroom
  have hpos : 0 < (iconv cd source.length source [] 32).written.length :=
    List.length_pos.mpr hwritten
  have hin : ¬ ((0 : Int) < 0 ∨
      ((List.replicate 32 (0 : Byte)).length : Int) <
        0 + ((iconv cd source.length source [] 32).written.length : Int)) := by
    simp only [List.length_replicate]
    omega
  unfold convertLoop
  simp only [hlen, if_false, hin, hbig]
  rw [if_pos]
  left
  omega

/-! ## Memory images -/

theorem encodeLE_length (w v : Nat) : (encodeLE w v).length = w := by
  induction w generalizing v with
  | zero => rfl
  | succ w ih => simp [encodeLE, ih]

theorem decodeLE_encodeLE (w v : Nat) : decodeLE (encodeLE w v) = v % 256 ^ w := by
  induction w generalizing v with
  | zero => simp [encodeLE, decodeLE, Nat.mod_one]
  | succ w ih =>
    simp only [encodeLE, decodeLE, ih]
    rw [pow_succ, mul_comm (256 ^ w) 256, Nat.mod_mul]

theorem encodeNative_length (pf : Platform) (w v : Nat) : (encodeNative pf w v).length = w := by
  unfold encodeNative
  split <;> simp [encodeLE_length]

theorem decodeNative_encodeNative (pf : Platform) (w v : Nat) :
    decodeNative pf (encodeNative pf w v) = v % 256 ^ w := by
  unfold decodeNative encodeNative
  split <;> simp [decodeLE_encodeLE]

/-! ## The selection request handler -/

/-- C2. With content of length zero or less, whatever the target, the handler
makes exactly one Xlib call: it writes no property and sends the requestor a
`SelectionNotify` whose property is `None`. -/
theorem handler_refuses_empty_content (pf : Platform) (cd : Converter) (p_display : Display)
    (evt : XSelectionRequestEvent) (cliptext : List Byte) (textlen : Int)
    (hempty : textlen ≤ 0) :
    ∃ calls, handle_x11_selectionrequest pf cd p_display evt cliptext textlen = .ok calls ∧
      propertyWrites calls = [] ∧
      sentEvents calls =
        [(evt.requestor,
          { type := SelectionNotify, display := evt.display, requestor := evt.requestor,
            selection := evt.selection, target := evt.target, property := None,
            time := evt.time })] := by
  have h : ¬ textlen > 0 := not_lt.mpr hempty
  have hrun : handle_x11_selectionrequest pf cd p_display evt cliptext textlen =
      .ok [ .sendEvent evt.requestor false 0
              { type := SelectionNotify, display := evt.display, requestor := evt.requestor,
                selection := evt.selection, target := evt.target, property := None,
                time := evt.time } ] := by
    simp only [handle_x11_selectionrequest, h, false_and, if_false]
  exact ⟨_, hrun, rfl, rfl⟩

theorem handler_refuses_empty_content_witness :
    ∃ calls, handle_x11_selectionrequest lp64 identityConverter sampleDisplay
        (sampleRequest XA_STRING) [] 0 = .ok calls ∧
      propertyWrites calls = [] ∧
      sentEvents calls =
        [(77, { type := SelectionNotify, display := 1, requestor := 77, selection := 300,
                target := XA_STRING, property := None, time := 1234 })] :=
  handler_refuses_empty_content lp64 identityConverter sampleDisplay (sampleRequest XA_STRING)
    [] 0 (by decide)

/-- C3, as the code has it. For a `TARGETS` request and content of positive
length the handler replaces the requested property, in 8-bit format, by the
memory image of the array of the three atoms `UTF8_STRING`, `XA_STRING`,
`SAVE_TARGETS` in that order: `3 * sizeof(Atom)` byte elements, which is the
whole array and nothing else. The `SelectionNotify` carries the requested
property. -/
theorem handler_answers_targets (pf : Platform) (cd : Converter) (p_display : Display)
    (evt : XSelectionRequestEvent) (cliptext : List Byte) (textlen : Int)
    (hlen : 0 < textlen) (htarget : evt.target = XInternAtom p_display "TARGETS" true) :
    handle_x11_selectionrequest pf cd p_display evt cliptext textlen =
      .ok [ .changeProperty evt.requestor evt.property evt.target 8 PropModeReplace
              (encodeNative pf pf.sizeofAtom (XInternAtom p_display "UTF8_STRING" true) ++
                encodeNative pf pf.sizeofAtom XA_STRING ++
                encodeNative pf pf.sizeofAtom (XInternAtom p_display "SAVE_TARGETS" false))
              (3 * pf.sizeofAtom : Nat),
            .sendEvent evt.requestor false 0
              { type := SelectionNotify, display := evt.display, requestor := evt.requestor,
                selection := evt.selection, target := evt.target, property := evt.property,
                time := evt.time } ] ∧
    (encodeNative pf pf.sizeofAtom (XInternAtom p_display "UTF8_STRING" true) ++
      encodeNative pf pf.sizeofAtom XA_STRING ++
      encodeNative pf pf.sizeofAtom (XInternAtom p_display "SAVE_TARGETS" false)).length =
        3 * pf.sizeofAtom := by
  constructor
  · have h : textlen > 0 := hlen
    simp only [handle_x11_selectionrequest, h, htarget, true_and, if_true, atomArrayBytes,
      List.length_cons, List.length_nil, List.append_nil, List.append_assoc]
  · simp only [List.length_append, encodeNative_length]
    omega

theorem handler_answers_targets_witness :
    handle_x11_selectionrequest lp64 identityConverter sampleDisplay (sampleRequest 302)
        [97] 1 =
      .ok [ .changeProperty 77 305 302 8 PropModeReplace
              (encodeNative lp64 8 301 ++ encodeNative lp64 8 XA_STRING ++ encodeNative lp64 8 303)
              24,
            .sendEvent 77 false 0
              { type := SelectionNotify, display := 1, requestor := 77, selection := 300,
                target := 302, property := 305, time := 1234 } ] ∧
    (encodeNative lp64 8 301 ++ encodeNative lp64 8 XA_STRING ++ encodeNative lp64 8 303).length
      = 3 * 8 :=
  handler_answers_targets lp64 identityConverter sampleDisplay (sampleRequest 302) [97] 1
    (by decide) (by decide)

/-- C3, as the claim has it, fails: on the 64-bit platform the property
written for a `TARGETS` request has 24 elements of 8 bits, not three. -/
theorem handler_targets_element_count :
    ∃ calls, handle_x11_selectionrequest lp64 identityConverter sampleDisplay
        (sampleRequest 302) [97] 1 = .ok calls ∧
      (propertyWrites calls).map XCall.nelements = [some 24] ∧
      (propertyWrites calls).map XCall.nelements ≠ [some 3] :=
  ⟨_, rfl, by decide, by decide⟩

/-- The `XA_STRING` branch of the handler on a content buffer of at least
`textlen` bytes: the conversion loop on a fresh 32-byte buffer, then the
answer. -/
theorem handler_string_run (pf : Platform) (cd : Converter) (p_display : Display)
    (evt : XSelectionRequestEvent) (cliptext : List Byte) (textlen : Int)
    (hlen : 0 < textlen) (htarget : evt.target = XA_STRING)
    (hnt : evt.target ≠ XInternAtom p_display "TARGETS" true)
    (hns : evt.target ≠ XInternAtom p_display "SAVE_TARGETS" false)
    (hnu : evt.target ≠ XInternAtom p_display "UTF8_STRING" true)
    (hbuf : textlen.toNat ≤ cliptext.length) :
    handle_x11_selectionrequest pf cd p_display evt cliptext textlen =
      match convertLoop cd
          (totalOut cd (cliptext.take textlen.toNat).length (cliptext.take textlen.toNat) + 2)
          { target_string := List.replicate 32 0, outbuf := 0, bytes_allocated := 32,
            outbytesleft := 32, source_string := cliptext.take textlen.toNat } with
      | .fault f => .error f
      | .failed =>
        .ok [ .sendEvent evt.requestor false 0
                { type := SelectionNotify, display := evt.display, requestor := evt.requestor,
                  selection := evt.selection, target := evt.target, property := None,
                  time := evt.time } ]
      | .done st =>
        .ok [ .changeProperty evt.requestor evt.property evt.target 8 PropModeReplace
                st.target_string (toCInt (sizeSub st.bytes_allocated st.outbytesleft)),
              .sendEvent evt.requestor false 0
                { type := SelectionNotify, display := evt.display, requestor := evt.requestor,
                  selection := evt.selection, target := evt.target, property := evt.property,
                  time := evt.time } ] := by
  have h : textlen > 0 := hlen
  unfold handle_x11_selectionrequest
  dsimp only
  rw [if_neg (fun hc => hnt hc.2), if_neg (fun hc => hns hc.2), if_neg (fun hc => hnu hc.2),
    if_pos ⟨h, htarget⟩, if_neg (not_lt.mpr hbuf)]

/-- C4. Every run of the handler that returns has made exactly one
`XSendEvent`: a `SelectionNotify` to the requestor that echoes the requestor,
selection, target and time of the request. The runs that do not return are
memory faults of the `XA_STRING` branch and no others: the content buffer is
shorter than `textlen`, or the first call of `iconv` ran out of room in the
32-byte conversion buffer (`E2BIG`). In the `XA_STRING` branch, on a buffer of
at least `textlen` bytes: a conversion that fails with an error other than
`E2BIG` returns after one `SelectionNotify` with property `None` and nothing
else; a conversion that succeeds returns after one property write and one
`SelectionNotify` with the requested property; and a conversion that has
stored something and then runs out of room does not return. -/
theorem handler_sends_one_notify (pf : Platform) (cd : Converter) (p_display : Display)
    (evt : XSelectionRequestEvent) (cliptext : List Byte) (textlen : Int) :
    (∀ calls, handle_x11_selectionrequest pf cd p_display evt cliptext textlen = .ok calls →
      ∃ property,
        sentEvents calls =
          [(evt.requestor,
            { type := SelectionNotify, display := evt.display, requestor := evt.requestor,
              selection := evt.selection, target := evt.target, property := property,
              time := evt.time })]) ∧
    (∀ f, handle_x11_selectionrequest pf cd p_display evt cliptext textlen = .error f →
      f = .outOfBounds ∧ 0 < textlen ∧ evt.target = XA_STRING ∧
      (cliptext.length < textlen.toNat ∨
        (iconv cd (cliptext.take textlen.toNat).length (cliptext.take textlen.toNat) []
          32).errno = some .E2BIG)) ∧
    (0 < textlen → evt.target = XA_STRING →
      evt.target ≠ XInternAtom p_display "TARGETS" true →
      evt.target ≠ XInternAtom p_display "SAVE_TARGETS" false →
      evt.target ≠ XInternAtom p_display "UTF8_STRING" true →
      textlen.toNat ≤ cliptext.length →
      (∀ e,
        (iconv cd (cliptext.take textlen.toNat).length (cliptext.take textlen.toNat) []
          32).errno = some e → e ≠ .E2BIG →
        handle_x11_selectionrequest pf cd p_display evt cliptext textlen =
          .ok [ .sendEvent evt.requestor false 0
                  { type := SelectionNotify, display := evt.display,
                    requestor := evt.requestor, selection := evt.selection,
                    target := evt.target, property := None, time := evt.time } ]) ∧
      ((iconv cd (cliptext.take textlen.toNat).length (cliptext.take textlen.toNat) []
          32).errno = none →
        handle_x11_selectionrequest pf cd p_display evt cliptext textlen =
          .ok [ .changeProperty evt.requestor evt.property evt.target 8 PropModeReplace
                  (writeAt (List.replicate 32 0) 0
                    (iconv cd (cliptext.take textlen.toNat).length
                      (cliptext.take textlen.toNat) [] 32).written)
                  (toCInt (sizeSub
                    (iconv cd (cliptext.take textlen.toNat).length
                      (cliptext.take textlen.toNat) [] 32).outbytesleft 32)),
                .sendEvent evt.requestor false 0
                  { type := SelectionNotify, display := evt.display,
                    requestor := evt.requestor, selection := evt.selection,
                    target := evt.target, property := evt.property, time := evt.time } ]) ∧
      ((iconv cd (cliptext.take textlen.toNat).length (cliptext.take textlen.toNat) []
          32).errno = some .E2BIG →
        (iconv cd (cliptext.take textlen.toNat).length (cliptext.take textlen.toNat) []
          32).written ≠ [] →
        handle_x11_selectionrequest pf cd p_display evt cliptext textlen =
          .error .outOfBounds)) := by
  have hne := convertLoop_not_exhausted cd
    (totalOut cd (cliptext.take textlen.toNat).length (cliptext.take textlen.toNat) + 2)
    { target_string := List.replicate 32 0, outbuf := 0, bytes_allocated := 32,
      outbytesleft := 32, source_string := cliptext.take textlen.toNat } rfl
    (by simp only; omega)
  have hreturn :
      (∀ calls, handle_x11_selectionrequest pf cd p_display evt cliptext textlen = .ok calls →
        ∃ property,
          sentEvents calls =
            [(evt.requestor,
              { type := SelectionNotify, display := evt.display, requestor := evt.requestor,
                selection := evt.selection, target := evt.target, property := property,
                time := evt.time })]) ∧
      (∀ f, handle_x11_selectionrequest pf cd p_display evt cliptext textlen = .error f →
        f = .outOfBounds ∧ 0 < textlen ∧ evt.target = XA_STRING ∧
        (cliptext.length < textlen.toNat ∨
          (iconv cd (cliptext.take textlen.toNat).length (cliptext.take textlen.toNat) []
            32).errno = some .E2BIG)) := by
    unfold handle_x11_selectionrequest
    dsimp only
    split_ifs with h1 h2 h3 h4 h5
    · exact ⟨fun calls h => (by cases h; exact ⟨_, rfl⟩), fun f h => (by cases h)⟩
    · exact ⟨fun calls h => (by cases h; exact ⟨_, rfl⟩), fun f h => (by cases h)⟩
    · exact ⟨fun calls h => (by cases h; exact ⟨_, rfl⟩), fun f h => (by cases h)⟩
    · exact ⟨fun calls h => (by cases h), fun f h => (by cases h; exact ⟨rfl, h4.1, h4.2, Or.inl h5⟩)⟩
    · have hsource : cliptext.take textlen.toNat ≠ [] := by
        intro hnil
        have hl := congrArg List.length hnil
        simp only [List.length_take, List.length_nil] at hl
        omega
      have hstart := convertLoop_start cd
        (totalOut cd (cliptext.take textlen.toNat).length (cliptext.take textlen.toNat))
        (cliptext.take textlen.toNat) hsource
      split
      · rename_i f hloop
        refine ⟨fun calls h => (by cases h), fun g h => ?_⟩
        cases h
        cases f with
        | exhausted => exact absurd hloop hne
        | outOfBounds =>
          refine ⟨rfl, h4.1, h4.2, Or.inr ?_⟩
          cases herr : (iconv cd (cliptext.take textlen.toNat).length
              (cliptext.take textlen.toNat) [] 32).errno with
          | none =>
            rw [hstart.1 herr] at hloop
            cases hloop
          | some e =>
            by_cases hbig : e = .E2BIG
            · rw [hbig]
            · rw [hstart.2 e herr hbig] at hloop
              cases hloop
      · exact ⟨fun calls h => (by cases h; exact ⟨_, rfl⟩), fun f h => (by cases h)⟩
      · exact ⟨fun calls h => (by cases h; exact ⟨_, rfl⟩), fun f h => (by cases h)⟩
    · exact ⟨fun calls h => (by cases h; exact ⟨_, rfl⟩), fun f h => (by cases h)⟩
  refine ⟨hreturn.1, hreturn.2, ?_⟩
  intro hlen htarget hnt hns hnu hbuf
  have hsource : cliptext.take textlen.toNat ≠ [] := by
    intro hnil
    have hl := congrArg List.length hnil
    simp only [List.length_take, List.length_nil] at hl
    omega
  have hstart := convertLoop_start cd
    (totalOut cd (cliptext.take textlen.toNat).length (cliptext.take textlen.toNat))
    (cliptext.take textlen.toNat) hsource
  have hrun := handler_string_run pf cd p_display evt cliptext textlen hlen htarget hnt hns hnu
    hbuf
  refine ⟨fun e herr hbig => ?_, fun herr => ?_, fun herr hwritten => ?_⟩
  · rw [hrun, hstart.2 e herr hbig]
  · rw [hrun, hstart.1 herr]
  · rw [hrun, convertLoop_start_e2big cd _ _ hsource herr hwritten]

theorem handler_sends_one_notify_witness :
    handle_x11_selectionrequest lp64 asciiConverter sampleDisplay (sampleRequest XA_STRING)
        [195, 169] 2 =
      .ok [ .sendEvent 77 false 0
              { type := SelectionNotify, display := 1, requestor := 77, selection := 300,
                target := XA_STRING, property := None, time := 1234 } ] :=
  ((handler_sends_one_notify lp64 asciiConverter sampleDisplay (sampleRequest XA_STRING)
    [195, 169] 2).2.2 (by decide) (by decide) (by decide) (by decide) (by decide)
    (by decide)).1 .EILSEQ (by decide) (by decide)

/-- C5, at a failing input. For an `XA_STRING` request, the identity
conversion and the three bytes of content `abc`, the handler passes the
element count -3 for the 32-byte conversion buffer, not the converted length
3; with 33 bytes of content the output pointer is set before the start of the
buffer. -/
theorem handler_string_element_count :
    handle_x11_selectionrequest lp64 identityConverter sampleDisplay (sampleRequest XA_STRING)
        [97, 98, 99] 3 =
      .ok [ .changeProperty 77 305 XA_STRING 8 PropModeReplace
              ([97, 98, 99] ++ List.replicate 29 0) (-3),
            .sendEvent 77 false 0
              { type := SelectionNotify, display := 1, requestor := 77, selection := 300,
                target := XA_STRING, property := 305, time := 1234 } ] ∧
    handle_x11_selectionrequest lp64 identityConverter sampleDisplay (sampleRequest XA_STRING)
        (List.replicate 33 65) 33 = .error .outOfBounds := by
  constructor <;> rfl

/-- The `UTF8_STRING` branch of the handler: the content pointer and length
go to `XChangeProperty` as they are. -/
theorem handler_utf8_run (pf : Platform) (cd : Converter) (p_display : Display)
    (evt : XSelectionRequestEvent) (cliptext : List Byte) (textlen : Int)
    (hlen : 0 < textlen)
    (htarget : evt.target = XInternAtom p_display "UTF8_STRING" true)
    (hnt : evt.target ≠ XInternAtom p_display "TARGETS" true)
    (hns : evt.target ≠ XInternAtom p_display "SAVE_TARGETS" false) :
    handle_x11_selectionrequest pf cd p_display evt cliptext textlen =
      .ok [ .changeProperty evt.requestor evt.property evt.target 8 PropModeReplace
              cliptext textlen,
            .sendEvent evt.requestor false 0
              { type := SelectionNotify, display := evt.display, requestor := evt.requestor,
                selection := evt.selection, target := evt.target, property := evt.property,
                time := evt.time } ] := by
  have h : textlen > 0 := hlen
  simp only [handle_x11_selectionrequest, h, hnt, hns, and_false, true_and, if_false,
    ← htarget, if_true]

/-- C6. For a request whose target is the `UTF8_STRING` atom (an atom other
than `TARGETS` and `SAVE_TARGETS`) and content of length n = `textlen` > 0 in
a buffer of at least n bytes, the handler passes the buffer and the count n to
`XChangeProperty` for the requested property of the requestor, in 8-bit format
and replacing: the property becomes the first n bytes of the buffer, unchanged
and in order, and the `SelectionNotify` carries the requested property. -/
theorem handler_answers_utf8 (pf : Platform) (cd : Converter) (p_display : Display)
    (evt : XSelectionRequestEvent) (cliptext : List Byte) (textlen : Int)
    (hlen : 0 < textlen) (hbuf : textlen.toNat ≤ cliptext.length)
    (htarget : evt.target = XInternAtom p_display "UTF8_STRING" true)
    (hnt : evt.target ≠ XInternAtom p_display "TARGETS" true)
    (hns : evt.target ≠ XInternAtom p_display "SAVE_TARGETS" false) :
    ∃ write,
      handle_x11_selectionrequest pf cd p_display evt cliptext textlen =
        .ok [ write,
              .sendEvent evt.requestor false 0
                { type := SelectionNotify, display := evt.display, requestor := evt.requestor,
                  selection := evt.selection, target := evt.target, property := evt.property,
                  time := evt.time } ] ∧
      write = .changeProperty evt.requestor evt.property evt.target 8 PropModeReplace
                cliptext textlen ∧
      write.stored = some (cliptext.take textlen.toNat) ∧
      (cliptext.take textlen.toNat).length = textlen := by
  refine ⟨.changeProperty evt.requestor evt.property evt.target 8 PropModeReplace
    cliptext textlen, ?_, rfl, ?_, ?_⟩
  · exact handler_utf8_run pf cd p_display evt cliptext textlen hlen htarget hnt hns
  · have h0 : 0 ≤ textlen := le_of_lt hlen
    simp only [XCall.stored, h0, hbuf, and_self, if_true]
  · simp only [List.length_take]
    omega

theorem handler_answers_utf8_witness :
    ∃ write,
      handle_x11_selectionrequest lp64 identityConverter sampleDisplay (sampleRequest 301)
          [84, 104, 105, 115, 0] 4 =
        .ok [ write,
              .sendEvent 77 false 0
                { type := SelectionNotify, display := 1, requestor := 77, selection := 300,
                  target := 301, property := 305, time := 1234 } ] ∧
      write = .changeProperty 77 305 301 8 PropModeReplace [84, 104, 105, 115, 0] 4 ∧
      write.stored = some [84, 104, 105, 115] ∧
      ([84, 104, 105, 115] : List Byte).length = (4 : Int) :=
  handler_answers_utf8 lp64 identityConverter sampleDisplay (sampleRequest 301)
    [84, 104, 105, 115, 0] 4 (by decide) (by decide) (by decide) (by decide) (by decide)

/-! ## The supervisor -/

theorem spawns_append (xs ys : List SysCall) : spawns (xs ++ ys) = spawns xs + spawns ys := by
  simp [spawns, List.countP_append]

/-- The recursion of `tiny_clipnwrite`, seen from the parent process: it
returns within `depthBound` activations, makes at most `4 - tries` children,
and in an environment where the bridge fails and every child is reported dead
it gives up with `ECHILD` and the counter reset. -/
theorem tiny_clipnwrite_rec_spec (pf : Platform) (env : WriteEnv) (text : List Byte) (len : Int)
    (hparent : ∀ k, env.fork k ≠ 0) (fuel depth : Nat) (st : Supervisor) (calls : List SysCall)
    (hfuel : st.depthBound ≤ fuel) :
    ∃ ret errno st2 calls2,
      tiny_clipnwrite_rec pf env text len fuel depth st calls = .returned ret errno st2 calls2 ∧
      spawns calls2 ≤ spawns calls + (4 - st.tries) ∧
      ((∀ k, env.XOpenDisplay k = true) → (∀ k, env.write_to_clipboard_manager k = false) →
        (∀ k, env.pipe k ≠ none) → (∀ k, env.fork k ≠ -1) → (∀ k, env.waitpid k ≠ 0) →
        ret = -1 ∧ errno = some .ECHILD ∧ st2.tries = 0 ∧
          spawns calls2 = spawns calls + (4 - st.tries)) := by
  induction fuel generalizing depth st calls with
  | zero =>
    unfold Supervisor.depthBound at hfuel
    split at hfuel <;> omega
  | succ fuel ih =>
    unfold tiny_clipnwrite_rec
    by_cases hd : env.XOpenDisplay depth = false
    · rw [if_pos hd]
      exact ⟨_, _, _, _, rfl, Nat.le_add_right _ _, fun h1 => by simp [h1 depth] at hd⟩
    rw [if_neg hd]
    by_cases hb : env.write_to_clipboard_manager depth = true
    · rw [if_pos hb]
      exact ⟨_, _, _, _, rfl, Nat.le_add_right _ _, fun _ h2 => by simp [h2 depth] at hb⟩
    rw [if_neg hb]
    by_cases hpid : st.s_cb_pid = 0
    · rw [if_pos hpid]
      simp only [Supervisor.depthBound, hpid, if_true] at hfuel
      dsimp only
      by_cases ht : st.tries > 3
      · rw [if_pos ht]
        refine ⟨_, _, _, _, rfl, Nat.le_add_right _ _, fun _ _ _ _ _ => ⟨rfl, rfl, rfl, ?_⟩⟩
        have : 4 - st.tries = 0 := by omega
        rw [this, Nat.add_zero]
      · rw [if_neg ht]
        have hmod : (st.tries + 1) % 2 ^ 16 = st.tries + 1 := Nat.mod_eq_of_lt (by omega)
        cases hp : env.pipe depth with
        | none =>
          exact ⟨_, _, _, _, rfl, Nat.le_add_right _ _, fun _ _ h3 => absurd hp (h3 depth)⟩
        | some fds =>
          obtain ⟨rd, wr⟩ := fds
          dsimp only
          by_cases hf : env.fork depth = -1
          · rw [if_pos hf]
            refine ⟨_, _, _, _, rfl, ?_, fun _ _ _ h4 => absurd hf (h4 depth)⟩
            simp only [spawns_append]
            simp [spawns, SysCall.isSpawn, hf]
          · rw [if_neg hf, if_neg (hparent depth)]
            have hsp : ∀ extra : List SysCall, spawns extra = 0 →
                spawns (calls ++ [SysCall.pipe rd wr, SysCall.fcntl rd] ++
                  [SysCall.fork (env.fork depth)] ++ [SysCall.close rd] ++ extra) =
                  spawns calls + 1 := by
              intro extra hextra
              simp only [spawns_append, hextra]
              simp [spawns, SysCall.isSpawn, hf, hparent depth]
            split
            · obtain ⟨ret, errno, st2, calls2, hrun, hle, hhost⟩ :=
                ih (depth + 1)
                  { s_cb_pid := env.fork depth, tries := (st.tries + 1) % 2 ^ 16,
                    pipefds := (rd, wr), has_registered_exit_handler := true }
                  (calls ++ [SysCall.pipe rd wr, SysCall.fcntl rd] ++
                    [SysCall.fork (env.fork depth)] ++ [SysCall.close rd] ++ [SysCall.atexit])
                  (by simp only [Supervisor.depthBound, hparent depth, if_false, hmod]; omega)
              have hs := hsp [SysCall.atexit] (by simp [spawns, SysCall.isSpawn])
              refine ⟨ret, errno, st2, calls2, hrun, ?_, fun h1 h2 h3 h4 h5 => ?_⟩
              · simp only [hs, hmod] at hle
                omega
              · obtain ⟨e1, e2, e3, e4⟩ := hhost h1 h2 h3 h4 h5
                refine ⟨e1, e2, e3, ?_⟩
                simp only [hs, hmod] at e4
                omega
            · obtain ⟨ret, errno, st2, calls2, hrun, hle, hhost⟩ :=
                ih (depth + 1)
                  { s_cb_pid := env.fork depth, tries := (st.tries + 1) % 2 ^ 16,
                    pipefds := (rd, wr),
                    has_registered_exit_handler := st.has_registered_exit_handler }
                  (calls ++ [SysCall.pipe rd wr, SysCall.fcntl rd] ++
                    [SysCall.fork (env.fork depth)] ++ [SysCall.close rd])
                  (by simp only [Supervisor.depthBound, hparent depth, if_false, hmod]; omega)
              have hs := hsp [] rfl
              rw [List.append_nil] at hs
              refine ⟨ret, errno, st2, calls2, hrun, ?_, fun h1 h2 h3 h4 h5 => ?_⟩
              · simp only [hs, hmod] at hle
                omega
              · obtain ⟨e1, e2, e3, e4⟩ := hhost h1 h2 h3 h4 h5
                refine ⟨e1, e2, e3, ?_⟩
                simp only [hs, hmod] at e4
                omega
    · rw [if_neg hpid]
      simp only [Supervisor.depthBound, hpid, if_false] at hfuel
      dsimp only
      by_cases hw : env.waitpid depth ≠ 0
      · rw [if_pos hw]
        obtain ⟨ret, errno, st2, calls2, hrun, hle, hhost⟩ :=
          ih (depth + 1) { st with s_cb_pid := 0 }
            (calls ++ [SysCall.waitpid st.s_cb_pid (env.waitpid depth)] ++
              [SysCall.close st.pipefds.2])
            (by simp only [Supervisor.depthBound, if_true]; omega)
        have hs : spawns (calls ++ [SysCall.waitpid st.s_cb_pid (env.waitpid depth)] ++
            [SysCall.close st.pipefds.2]) = spawns calls := by
          simp only [spawns_append]
          simp [spawns, SysCall.isSpawn]
        refine ⟨ret, errno, st2, calls2, hrun, ?_, fun h1 h2 h3 h4 h5 => ?_⟩
        · simpa only [hs] using hle
        · simpa only [hs] using hhost h1 h2 h3 h4 h5
      · rw [if_neg hw]
        refine ⟨_, _, _, _, rfl, ?_, fun _ _ _ _ h5 => absurd (h5 depth) (by simpa using hw)⟩
        simp only [spawns_append]
        simp [spawns, SysCall.isSpawn]

/-- The recursion of `tiny_clipnwrite` ends within `depthBound` activations
and makes at most `4 - tries` children, whatever the environment answers. -/
theorem tiny_clipnwrite_rec_total (pf : Platform) (env : WriteEnv) (text : List Byte) (len : Int)
    (fuel depth : Nat) (st : Supervisor) (calls : List SysCall)
    (hfuel : st.depthBound ≤ fuel) :
    tiny_clipnwrite_rec pf env text len fuel depth st calls ≠ .exhausted ∧
    spawns (tiny_clipnwrite_rec pf env text len fuel depth st calls).calls ≤
      spawns calls + (4 - st.tries) := by
  induction fuel generalizing depth st calls with
  | zero =>
    unfold Supervisor.depthBound at hfuel
    split at hfuel <;> omega
  | succ fuel ih =>
    unfold tiny_clipnwrite_rec
    by_cases hd : env.XOpenDisplay depth = false
    · rw [if_pos hd]
      exact ⟨by simp, Nat.le_add_right _ _⟩
    rw [if_neg hd]
    by_cases hb : env.write_to_clipboard_manager depth = true
    · rw [if_pos hb]
      exact ⟨by simp, Nat.le_add_right _ _⟩
    rw [if_neg hb]
    by_cases hpid : st.s_cb_pid = 0
    · rw [if_pos hpid]
      simp only [Supervisor.depthBound, hpid, if_true] at hfuel
      dsimp only
      by_cases ht : st.tries > 3
      · rw [if_pos ht]
        exact ⟨by simp, Nat.le_add_right _ _⟩
      · rw [if_neg ht]
        have hmod : (st.tries + 1) % 2 ^ 16 = st.tries + 1 := Nat.mod_eq_of_lt (by omega)
        cases hp : env.pipe depth with
        | none => exact ⟨by simp, Nat.le_add_right _ _⟩
        | some fds =>
          obtain ⟨rd, wr⟩ := fds
          dsimp only
          have h1 : spawns [SysCall.pipe rd wr, SysCall.fcntl rd] = 0 := by
            simp [spawns, SysCall.isSpawn]
          have h2 : spawns [SysCall.fork (env.fork depth)] ≤ 1 := by
            have h := List.countP_le_length SysCall.isSpawn
              (l := [SysCall.fork (env.fork depth)])
            simpa [spawns] using h
          have h3 : spawns [SysCall.close rd] = 0 := by simp [spawns, SysCall.isSpawn]
          have h4 : spawns [SysCall.atexit] = 0 := by simp [spawns, SysCall.isSpawn]
          have h5 : spawns [SysCall.close wr] = 0 := by simp [spawns, SysCall.isSpawn]
          have h6 : spawns [SysCall.close rd, SysCall.close wr] = 0 := by
            simp [spawns, SysCall.isSpawn]
          by_cases hf : env.fork depth = -1
          · rw [if_pos hf]
            refine ⟨by simp, ?_⟩
            simp only [WriteOutcome.calls, spawns_append]
            omega
          · rw [if_neg hf]
            by_cases hc : env.fork depth = 0
            · rw [if_pos hc]
              refine ⟨by simp, ?_⟩
              simp only [WriteOutcome.calls, spawns_append]
              omega
            · rw [if_neg hc]
              split
              · obtain ⟨hne, hle⟩ :=
                  ih (depth + 1)
                    { s_cb_pid := env.fork depth, tries := (st.tries + 1) % 2 ^ 16,
                      pipefds := (rd, wr), has_registered_exit_handler := true }
                    (calls ++ [SysCall.pipe rd wr, SysCall.fcntl rd] ++
                      [SysCall.fork (env.fork depth)] ++ [SysCall.close rd] ++
                      [SysCall.atexit])
                    (by simp only [Supervisor.depthBound, hc, if_false, hmod]; omega)
                refine ⟨hne, ?_⟩
                rw [hmod] at hle
                simp only [spawns_append] at hle
                rw [hmod]
                omega
              · obtain ⟨hne, hle⟩ :=
                  ih (depth + 1)
                    { s_cb_pid := env.fork depth, tries := (st.tries + 1) % 2 ^ 16,
                      pipefds := (rd, wr),
                      has_registered_exit_handler := st.has_registered_exit_handler }
                    (calls ++ [SysCall.pipe rd wr, SysCall.fcntl rd] ++
                      [SysCall.fork (env.fork depth)] ++ [SysCall.close rd])
                    (by simp only [Supervisor.depthBound, hc, if_false, hmod]; omega)
                refine ⟨hne, ?_⟩
                rw [hmod] at hle
                simp only [spawns_append] at hle
                rw [hmod]
                omega
    · rw [if_neg hpid]
      simp only [Supervisor.depthBound, hpid, if_false] at hfuel
      dsimp only
      by_cases hw : env.waitpid depth ≠ 0
      · rw [if_pos hw]
        obtain ⟨hne, hle⟩ :=
          ih (depth + 1) { st with s_cb_pid := 0 }
            (calls ++ [SysCall.waitpid st.s_cb_pid (env.waitpid depth)] ++
              [SysCall.close st.pipefds.2])
            (by simp only [Supervisor.depthBound, if_true]; omega)
        have hs : spawns (calls ++ [SysCall.waitpid st.s_cb_pid (env.waitpid depth)] ++
            [SysCall.close st.pipefds.2]) = spawns calls := by
          simp only [spawns_append]
          simp [spawns, SysCall.isSpawn]
        refine ⟨hne, ?_⟩
        simpa only [hs] using hle
      · rw [if_neg hw]
        refine ⟨by simp, ?_⟩
        simp only [WriteOutcome.calls, spawns_append]
        simp [spawns, SysCall.isSpawn]

/-- C7. Whatever the display, the manager bridge, `pipe`, `fork` and `waitpid`
answer, a call of `tiny_clipnwrite` entered with the failure counter at 0
ends (within ten activations) and makes at most 4 children. In the calling
process, where `fork` does not return 0, the call returns; when moreover the
display opens, the bridge always fails, pipes and forks succeed and every
child is reported dead, it makes 4 children and then returns -1 with
`ECHILD`, the counter reset to 0. -/
theorem tiny_clipnwrite_bounded_retry (pf : Platform) (env : WriteEnv) (text : List Byte)
    (len : Int) (st : Supervisor) (htries : st.tries = 0) :
    tiny_clipnwrite pf env text len st ≠ .exhausted ∧
    spawns (tiny_clipnwrite pf env text len st).calls ≤ 4 ∧
    ((∀ k, env.fork k ≠ 0) →
      ∃ ret errno st2 calls,
        tiny_clipnwrite pf env text len st = .returned ret errno st2 calls ∧
        ((∀ k, env.XOpenDisplay k = true) → (∀ k, env.write_to_clipboard_manager k = false) →
          (∀ k, env.pipe k ≠ none) → (∀ k, env.fork k ≠ -1) → (∀ k, env.waitpid k ≠ 0) →
          ret = -1 ∧ errno = some .ECHILD ∧ st2.tries = 0 ∧ spawns calls = 4)) := by
  have hfuel : st.depthBound ≤ 10 := by
    unfold Supervisor.depthBound
    split <;> omega
  obtain ⟨hne, hle⟩ := tiny_clipnwrite_rec_total pf env text len 10 0 st [] hfuel
  refine ⟨hne, ?_, fun hparent => ?_⟩
  · simpa [spawns, htries, tiny_clipnwrite] using hle
  · obtain ⟨ret, errno, st2, calls, hrun, _, hhost⟩ :=
      tiny_clipnwrite_rec_spec pf env text len hparent 10 0 st [] hfuel
    refine ⟨ret, errno, st2, calls, hrun, fun h1 h2 h3 h4 h5 => ?_⟩
    simpa [spawns, htries] using hhost h1 h2 h3 h4 h5

theorem tiny_clipnwrite_bounded_retry_witness :
    tiny_clipnwrite lp64 hostileEnv [97, 98, 99] 3 Supervisor.initial ≠ .exhausted ∧
    spawns (tiny_clipnwrite lp64 hostileEnv [97, 98, 99] 3 Supervisor.initial).calls ≤ 4 ∧
    ((∀ k, hostileEnv.fork k ≠ 0) →
      ∃ ret errno st2 calls,
        tiny_clipnwrite lp64 hostileEnv [97, 98, 99] 3 Supervisor.initial =
          .returned ret errno st2 calls ∧
        ((∀ k, hostileEnv.XOpenDisplay k = true) →
          (∀ k, hostileEnv.write_to_clipboard_manager k = false) →
          (∀ k, hostileEnv.pipe k ≠ none) → (∀ k, hostileEnv.fork k ≠ -1) →
          (∀ k, hostileEnv.waitpid k ≠ 0) →
          ret = -1 ∧ errno = some .ECHILD ∧ st2.tries = 0 ∧ spawns calls = 4)) :=
  tiny_clipnwrite_bounded_retry lp64 hostileEnv [97, 98, 99] 3 Supervisor.initial rfl

/-- C8. When a worker handle exists, the failure counter is 0, the worker is
reported dead, the bridge fails, and the next `pipe` and `fork` succeed with
the new worker alive, `tiny_clipnwrite` closes the old pipe, makes exactly
one child, writes to the new pipe the 4-byte image of the length and then the
content and nothing else, and returns 0 with the new handle stored and the
failure counter at 0. -/
theorem tiny_clipnwrite_respawn (pf : Platform) (env : WriteEnv) (text : List Byte)
    (st : Supervisor) (rd wr pid : Int)
    (hhandle : st.s_cb_pid ≠ 0) (htries : st.tries = 0)
    (hdisplay : ∀ k, k ≤ 2 → env.XOpenDisplay k = true)
    (hbridge : ∀ k, k ≤ 2 → env.write_to_clipboard_manager k = false)
    (hdead : env.waitpid 0 ≠ 0)
    (hpipe : env.pipe 1 = some (rd, wr)) (hfork : env.fork 1 = pid)
    (hpid1 : pid ≠ -1) (hpid0 : pid ≠ 0) (halive : env.waitpid 2 = 0)
    (hlen : text.length < 2 ^ 31) :
    ∃ calls,
      tiny_clipnwrite pf env text text.length st =
        .returned 0 none
          { s_cb_pid := pid, tries := 0, pipefds := (rd, wr),
            has_registered_exit_handler := true } calls ∧
      SysCall.close st.pipefds.2 ∈ calls ∧
      spawns calls = 1 ∧
      calls.filterMap SysCall.written = [(wr, intBytes pf text.length), (wr, text)] := by
  have hd0 := hdisplay 0 (by omega)
  have hd1 := hdisplay 1 (by omega)
  have hd2 := hdisplay 2 (by omega)
  have hb0 := hbridge 0 (by omega)
  have hb1 := hbridge 1 (by omega)
  have hb2 := hbridge 2 (by omega)
  have hsize : intToSize (text.length : Int) = text.length := by
    unfold intToSize
    have h1 : ((text.length : Int)) % 2 ^ 64 = text.length :=
      Int.emod_eq_of_lt (by omega) (by omega)
    rw [h1]
    rfl
  have hheader : (4 : Nat) ≤ (intBytes pf (text.length : Int)).length := by
    simp [intBytes, encodeNative_length]
  have htake : List.take 4 (intBytes pf (text.length : Int)) = intBytes pf text.length :=
    List.take_of_length_le (by simp [intBytes, encodeNative_length])
  cases hreg : st.has_registered_exit_handler
  · have hrun : tiny_clipnwrite pf env text text.length st =
        .returned 0 none
          { s_cb_pid := pid, tries := 0, pipefds := (rd, wr),
            has_registered_exit_handler := true }
          [.waitpid st.s_cb_pid (env.waitpid 0), .close st.pipefds.2, .pipe rd wr, .fcntl rd,
            .fork pid, .close rd, .atexit, .waitpid pid 0,
            .write wr (intBytes pf text.length) 4,
            .write wr text (intToSize text.length)] := by
      simp [tiny_clipnwrite, tiny_clipnwrite_rec, hd0, hd1, hd2, hb0, hb1, hb2, hhandle, hdead,
        hpipe, hfork, hpid1, hpid0, halive, htries, hreg]
    refine ⟨_, hrun, ?_, ?_, ?_⟩
    · simp
    · simp [spawns, SysCall.isSpawn, hpid1, hpid0]
    · simp [List.filterMap, SysCall.written, hsize, hheader, htake]
  · have hrun : tiny_clipnwrite pf env text text.length st =
        .returned 0 none
          { s_cb_pid := pid, tries := 0, pipefds := (rd, wr),
            has_registered_exit_handler := true }
          [.waitpid st.s_cb_pid (env.waitpid 0), .close st.pipefds.2, .pipe rd wr, .fcntl rd,
            .fork pid, .close rd, .waitpid pid 0,
            .write wr (intBytes pf text.length) 4,
            .write wr text (intToSize text.length)] := by
      simp [tiny_clipnwrite, tiny_clipnwrite_rec, hd0, hd1, hd2, hb0, hb1, hb2, hhandle, hdead,
        hpipe, hfork, hpid1, hpid0, halive, htries, hreg]
    refine ⟨_, hrun, ?_, ?_, ?_⟩
    · simp
    · simp [spawns, SysCall.isSpawn, hpid1, hpid0]
    · simp [List.filterMap, SysCall.written, hsize, hheader, htake]

theorem tiny_clipnwrite_respawn_witness :
    ∃ calls,
      tiny_clipnwrite lp64 respawnEnv [97, 98, 99] ([97, 98, 99] : List Byte).length
          { s_cb_pid := 4141, tries := 0, pipefds := (3, 4),
            has_registered_exit_handler := true } =
        .returned 0 none
          { s_cb_pid := 4242, tries := 0, pipefds := (5, 6),
            has_registered_exit_handler := true } calls ∧
      SysCall.close 4 ∈ calls ∧
      spawns calls = 1 ∧
      calls.filterMap SysCall.written =
        [(6, intBytes lp64 ([97, 98, 99] : List Byte).length), (6, [97, 98, 99])] :=
  tiny_clipnwrite_respawn lp64 respawnEnv [97, 98, 99]
    { s_cb_pid := 4141, tries := 0, pipefds := (3, 4), has_registered_exit_handler := true }
    5 6 4242 (by decide) rfl (fun _ _ => rfl) (fun _ _ => rfl) (by decide) rfl rfl
    (by decide) (by decide) rfl (by decide)

/-! ## The selection reader -/

/-- C9. When the display opens and no window owns `CLIPBOARD`,
`tiny_clipread` returns `NULL` with `errno` set to `EAGAIN` after three Xlib
calls: it opens the connection, asks for the owner and closes the connection.
It creates no window, issues no conversion request and never waits for an
event. -/
theorem tiny_clipread_no_owner (env : ReadEnv) (p_display : Display)
    (hopen : env.XOpenDisplay = some p_display)
    (hnone : env.XGetSelectionOwner (XInternAtom p_display "CLIPBOARD" false) = None) :
    ∃ calls,
      tiny_clipread env = .returned none none (some .EAGAIN) calls ∧
      calls = [.openDisplay, .getSelectionOwner (XInternAtom p_display "CLIPBOARD" false),
               .closeDisplay] ∧
      XCall.nextEvent ∉ calls ∧
      (∀ w, XCall.createSimpleWindow w ∉ calls) ∧
      (∀ selection target property requestor time,
        XCall.convertSelection selection target property requestor time ∉ calls) := by
  refine ⟨_, ?_, rfl, ?_, ?_, ?_⟩
  · simp [tiny_clipread, hopen, hnone]
  · simp
  · simp
  · simp

theorem tiny_clipread_no_owner_witness :
    ∃ calls,
      tiny_clipread noOwnerEnv = .returned none none (some .EAGAIN) calls ∧
      calls = [.openDisplay, .getSelectionOwner (XInternAtom sampleDisplay "CLIPBOARD" false),
               .closeDisplay] ∧
      XCall.nextEvent ∉ calls ∧
      (∀ w, XCall.createSimpleWindow w ∉ calls) ∧
      (∀ selection target property requestor time,
        XCall.convertSelection selection target property requestor time ∉ calls) :=
  tiny_clipread_no_owner noOwnerEnv sampleDisplay rfl rfl

theorem intToSize_natCast (n : Nat) (hn : n < 2 ^ 31) : intToSize (n : Int) = n := by
  unfold intToSize
  rw [Int.emod_eq_of_lt (by omega) (by omega)]
  rfl

/-- The length check of `tiny_clipread`, `bytes_left + 1 > INT_MAX`, on an
`unsigned long` count: it rejects the counts from `INT_MAX` on, except the
largest one, where the sum wraps to 0; below `INT_MAX` the conversion to `int`
keeps the value. -/
theorem tiny_clipread_length_check (bytes_left : Nat) (hlong : bytes_left < 2 ^ 64) :
    (sizeAdd bytes_left 1 > INT_MAX ↔ INT_MAX ≤ bytes_left ∧ bytes_left ≠ 2 ^ 64 - 1) ∧
    (bytes_left < INT_MAX → toCInt bytes_left = bytes_left) := by
  unfold sizeAdd INT_MAX toCInt
  constructor
  · constructor
    · intro h
      by_cases hmax : bytes_left = 2 ^ 64 - 1
      · subst hmax
        norm_num at h
      · rw [Nat.mod_eq_of_lt (by omega)] at h
        omega
    · rintro ⟨h1, h2⟩
      rw [Nat.mod_eq_of_lt (by omega)]
      omega
  · intro h
    have h1 : bytes_left % 2 ^ 32 = bytes_left := Nat.mod_eq_of_lt (by omega)
    rw [h1, if_pos (by omega)]

/-- The one count at which the sum of the length check wraps: for an
`unsigned long` of 2^64 - 1 the sum `bytes_left + 1` is 0 and passes the check
against `INT_MAX`, and the count converts to the `int` -1. No reply carries
this count: Xlib fills the `unsigned long` from the 32-bit bytes-after field
of the reply. -/
theorem tiny_clipread_length_check_wraps :
    ¬ (sizeAdd (2 ^ 64 - 1) 1 > INT_MAX) ∧
    toCInt (2 ^ 64 - 1) = -1 ∧
    tiny_clipread (probeEnv (2 ^ 64 - 1)) =
      .fault .outOfBounds
        [.openDisplay, .getSelectionOwner 300, .createSimpleWindow 77,
         .convertSelection 300 301 305 77 CurrentTime, .nextEvent,
         .getWindowProperty 77 305 0 0, .getWindowProperty 77 305 0 (2 ^ 64 - 1)] := by
  refine ⟨by decide, by decide, by decide⟩

theorem intBytes_length (pf : Platform) (v : Int) : (intBytes pf v).length = 4 := by
  simp [intBytes, encodeNative_length]

theorem intOfBytes_intBytes (pf : Platform) (n : Nat) (hn : n < 2 ^ 31) :
    intOfBytes pf (intBytes pf n) = n := by
  unfold intOfBytes intBytes
  rw [decodeNative_encodeNative]
  have h1 : ((n : Int) % 2 ^ 32).toNat = n := by
    rw [Int.emod_eq_of_lt (by omega) (by omega)]
    rfl
  rw [h1]
  have h2 : n % 256 ^ 4 = n := Nat.mod_eq_of_lt (by norm_num; omega)
  rw [h2]
  unfold toCInt
  have h3 : n % 2 ^ 32 = n := Nat.mod_eq_of_lt (by omega)
  rw [h3, if_pos hn]

theorem writeAt_zeros (text : List Byte) :
    writeAt (List.replicate (text.length + 1) 0) 0 text = text ++ [0] := by
  simp [writeAt, List.drop_replicate]

/-- The worker reads one frame, the image of the length and then the
content, from the front of the pipe into its buffer, and leaves the bytes
behind the frame in the pipe. -/
theorem get_clipboard_text_frame_append (pf : Platform) (text rest : List Byte)
    (hpos : 0 < text.length) (hmax : text.length < INT_MAX) (p_str : Option (List Byte))
    (p_len : Int) :
    get_clipboard_text pipeRead pf (intBytes pf text.length ++ text ++ rest) p_str p_len =
      .ok (rest, some (text ++ [0]), text.length) := by
  have hmax2 : text.length < 2 ^ 31 := by
    unfold INT_MAX at hmax
    omega
  have hne : text ≠ [] := fun h => by simp [h] at hpos
  have hhead : pipeRead (intBytes pf text.length ++ text ++ rest) 4 =
      ({ ret := 4, errno := none, data := intBytes pf text.length }, text ++ rest) := by
    have hl := intBytes_length pf text.length
    simp [pipeRead, List.take_append_eq_append_take, List.drop_append_eq_append_drop, hl,
      List.take_of_length_le (le_of_eq hl), List.drop_of_length_le (le_of_eq hl), hne]
  have hbody : pipeRead (text ++ rest) text.length =
      ({ ret := text.length, errno := none, data := text }, rest) := by
    simp [pipeRead, hne, Nat.pos_iff_ne_zero.mp hpos, List.take_append_eq_append_take,
      List.drop_append_eq_append_drop]
  unfold get_clipboard_text
  simp only [hhead, intOfBytes_intBytes pf text.length hmax2,
    intToSize_natCast text.length hmax2, hbody]
  have h1 : ¬ ((4 : Int) < 0 ∧ (none : Option Errno) = some Errno.EAGAIN) := by simp
  have h2 : ¬ ((4 : Int) < 0 ∨ (4 : Int) ≠ 4) := by simp
  have h3 : ¬ ((text.length : Int) + 1 < 0 ∨ (INT_MAX : Int) < (text.length : Int) + 1) := by
    unfold INT_MAX at *
    push_cast
    omega
  have h4 : ¬ ((text.length : Int) ≤ 0 ∨ (text.length : Int) ≠ text.length) := by
    simp only [ne_eq, not_true_eq_false, or_false]
    omega
  rw [if_neg h1, if_neg h2, if_neg h3, if_neg h4]
  have h5 : ((text.length : Int) + 1).toNat = text.length + 1 := by omega
  rw [h5, writeAt_zeros]

/-- The worker reads one frame, the image of the length and then the
content, from the pipe into its buffer. -/
theorem get_clipboard_text_frame (pf : Platform) (text : List Byte) (hpos : 0 < text.length)
    (hmax : text.length < INT_MAX) (p_str : Option (List Byte)) (p_len : Int) :
    get_clipboard_text pipeRead pf (intBytes pf text.length ++ text) p_str p_len =
      .ok ([], some (text ++ [0]), text.length) := by
  have h := get_clipboard_text_frame_append pf text [] hpos hmax p_str p_len
  rwa [List.append_nil] at h

theorem takeWhile_nonzero (text : List Byte) (hnul : ∀ b ∈ text, b ≠ 0) :
    (text ++ [0]).takeWhile (fun b => decide (b ≠ 0)) = text := by
  induction text with
  | nil => simp [List.takeWhile]
  | cons b bs ih =>
    have hb : b ≠ 0 := hnul b (List.mem_cons_self _ _)
    have hbs : ∀ c ∈ bs, c ≠ 0 := fun c hc => hnul c (List.mem_cons_of_mem _ hc)
    simp [List.takeWhile, hb]
    simpa using ih hbs

theorem strncpy_text (text : List Byte) (hnul : ∀ b ∈ text, b ≠ 0) :
    strncpy (text ++ [0]) text.length = text := by
  unfold strncpy
  rw [takeWhile_nonzero text hnul]
  simp

/-- The handler on content of length zero or less: one refusal. -/
theorem handler_empty_run (pf : Platform) (cd : Converter) (p_display : Display)
    (evt : XSelectionRequestEvent) (cliptext : List Byte) (textlen : Int)
    (hempty : textlen ≤ 0) :
    handle_x11_selectionrequest pf cd p_display evt cliptext textlen =
      .ok [ .sendEvent evt.requestor false 0
              { type := SelectionNotify, display := evt.display, requestor := evt.requestor,
                selection := evt.selection, target := evt.target, property := None,
                time := evt.time } ] := by
  have h : ¬ textlen > 0 := not_lt.mpr hempty
  simp only [handle_x11_selectionrequest, h, false_and, if_false]

/-- The worker's answer to a `UTF8_STRING` request when one frame with `text`
is in the pipe: it stores the content as the requested property and notifies
the requestor. -/
theorem workerAnswer_utf8 (pf : Platform) (cd : Converter) (w : World) (text : List Byte)
    (r : ConversionRequest) (hpos : 0 < text.length) (hmax : text.length < INT_MAX)
    (htarget : r.target = XInternAtom w.display "UTF8_STRING" true)
    (hnt : r.target ≠ XInternAtom w.display "TARGETS" true)
    (hns : r.target ≠ XInternAtom w.display "SAVE_TARGETS" false) :
    workerAnswer pf cd w (intBytes pf text.length ++ text) r =
      [ .changeProperty r.requestor r.property r.target 8 PropModeReplace (text ++ [0])
          text.length,
        .sendEvent r.requestor false 0
          { type := SelectionNotify, display := w.display.id, requestor := r.requestor,
            selection := r.selection, target := r.target, property := r.property,
            time := r.time } ] := by
  have hrun := handler_utf8_run pf cd w.display
    (selectionRequestOf w.display.id w.workerWindow r) (text ++ [0]) text.length
    (by exact_mod_cast hpos) htarget hnt hns
  unfold workerAnswer own_x11_clipboard_step
  simp only [Worker.start, get_clipboard_text_frame pf text hpos hmax, Option.getD_some, hrun]
  rfl

/-- The first call of `tiny_clipnwrite` in a process, when no manager takes
the content and the new child is alive: it makes the pipe and the child and
writes one frame. -/
theorem tiny_clipnwrite_first_call (pf : Platform) (fds : Int × Int) (pid : Int)
    (text : List Byte) (len : Int) (hpid0 : pid ≠ 0) (hpid1 : pid ≠ -1) :
    tiny_clipnwrite pf
        { XOpenDisplay := fun _ => true, write_to_clipboard_manager := fun _ => false,
          pipe := fun _ => some fds, fork := fun _ => pid, waitpid := fun _ => 0 }
        text len Supervisor.initial =
      .returned 0 none
        { s_cb_pid := pid, tries := 0, pipefds := fds, has_registered_exit_handler := true }
        [.pipe fds.1 fds.2, .fcntl fds.1, .fork pid, .close fds.1, .atexit, .waitpid pid 0,
          .write fds.2 (intBytes pf len) 4, .write fds.2 text (intToSize len)] := by
  obtain ⟨rd, wr⟩ := fds
  simp [tiny_clipnwrite, tiny_clipnwrite_rec, Supervisor.initial, hpid0, hpid1]

theorem writtenBytes_frame (pf : Platform) (fds : Int × Int) (pid : Int) (text : List Byte)
    (hmax : text.length < 2 ^ 31) :
    writtenBytes
        [.pipe fds.1 fds.2, .fcntl fds.1, .fork pid, .close fds.1, .atexit, .waitpid pid 0,
          .write fds.2 (intBytes pf text.length) 4,
          .write fds.2 text (intToSize text.length)] fds.2 =
      intBytes pf text.length ++ text := by
  have hl := intBytes_length pf text.length
  simp [writtenBytes, List.filterMap, SysCall.written, intToSize_natCast text.length hmax, hl,
    List.take_of_length_le (le_of_eq hl)]

/-- A frame that fits the pipe is in the pipe as a whole. -/
theorem pipeContents_frame (pf : Platform) (capacity : Nat) (fds : Int × Int) (pid : Int)
    (text : List Byte) (hmax : text.length < 2 ^ 31) (hfit : text.length + 4 ≤ capacity) :
    pipeContents capacity
        [.pipe fds.1 fds.2, .fcntl fds.1, .fork pid, .close fds.1, .atexit, .waitpid pid 0,
          .write fds.2 (intBytes pf text.length) 4,
          .write fds.2 text (intToSize text.length)] fds.2 =
      intBytes pf text.length ++ text := by
  unfold pipeContents
  rw [writtenBytes_frame pf fds pid text hmax]
  apply List.take_of_length_le
  simp only [List.length_append, intBytes_length]
  omega

/-- A frame cut short by the pipe: when fewer than the 4 + n bytes of a frame
are in the pipe, `get_clipboard_text` of a fresh worker leaves `NULL` and
length 0. -/
theorem get_clipboard_text_cut_frame (pf : Platform) (text : List Byte) (capacity : Nat)
    (hmax : text.length < INT_MAX) (hcut : capacity < text.length + 4) :
    ∃ rest,
      get_clipboard_text pipeRead pf ((intBytes pf text.length ++ text).take capacity) none 0 =
        .ok (rest, none, 0) := by
  have hmax2 : text.length < 2 ^ 31 := by
    unfold INT_MAX at hmax
    omega
  have hl := intBytes_length pf text.length
  by_cases h4 : 4 ≤ capacity
  · have htake : (intBytes pf text.length ++ text).take capacity =
        intBytes pf text.length ++ text.take (capacity - 4) := by
      rw [List.take_append_eq_append_take, hl, List.take_of_length_le (by omega)]
    have hhead : pipeRead (intBytes pf text.length ++ text.take (capacity - 4)) 4 =
        ({ ret := 4, errno := none, data := intBytes pf text.length },
          text.take (capacity - 4)) := by
      have hne : intBytes pf text.length ≠ [] := fun h => by simp [h] at hl
      simp [pipeRead, List.take_append_eq_append_take, List.drop_append_eq_append_drop, hl,
        List.take_of_length_le (le_of_eq hl), List.drop_of_length_le (le_of_eq hl), hne]
    rw [htake]
    unfold get_clipboard_text
    simp only [hhead, intOfBytes_intBytes pf text.length hmax2,
      intToSize_natCast text.length hmax2]
    have h1 : ¬ ((4 : Int) < 0 ∧ (none : Option Errno) = some Errno.EAGAIN) := by simp
    have h2 : ¬ ((4 : Int) < 0 ∨ (4 : Int) ≠ 4) := by simp
    have h3 : ¬ ((text.length : Int) + 1 < 0 ∨ (INT_MAX : Int) < (text.length : Int) + 1) := by
      unfold INT_MAX at *
      push_cast
      omega
    rw [if_neg h1, if_neg h2, if_neg h3]
    have h5 : (pipeRead (text.take (capacity - 4)) text.length).1.ret ≤ 0 ∨
        (pipeRead (text.take (capacity - 4)) text.length).1.ret ≠ text.length := by
      unfold pipeRead
      split_ifs with ha hb
      · left
        simp
      · left
        simp
      · right
        simp only [List.length_take, ne_eq]
        omega
    rw [if_pos h5]
    exact ⟨_, rfl⟩
  · have htake : (intBytes pf text.length ++ text).take capacity =
        (intBytes pf text.length).take capacity := by
      rw [List.take_append_eq_append_take, hl]
      have h0 : capacity - 4 = 0 := by omega
      simp [h0]
    rw [htake]
    unfold get_clipboard_text
    by_cases h0 : capacity = 0
    · subst h0
      simp [pipeRead]
    · have hne : (intBytes pf text.length).take capacity ≠ [] := by
        intro h
        have hlen := congrArg List.length h
        simp only [List.length_take, hl, List.length_nil] at hlen
        omega
      have hhead : pipeRead ((intBytes pf text.length).take capacity) 4 =
          ({ ret := (capacity : Int), errno := none,
             data := ((intBytes pf text.length).take capacity).take 4 },
            ((intBytes pf text.length).take capacity).drop 4) := by
        simp only [pipeRead, hne, if_false, List.length_take, hl]
        have hmin : min 4 (min capacity 4) = capacity := by omega
        have hle : capacity ≤ 4 := by omega
        simp [hmin, hle]
      simp only [hhead]
      have h1 : ¬ ((capacity : Int) < 0 ∧ (none : Option Errno) = some Errno.EAGAIN) := by simp
      have h2 : (capacity : Int) < 0 ∨ (capacity : Int) ≠ 4 := by
        right
        omega
      rw [if_neg h1, if_pos h2]
      exact ⟨_, rfl⟩

/-- The worker's answer to a request when the pipe holds a frame cut short:
one refusal. -/
theorem workerAnswer_cut_frame (pf : Platform) (cd : Converter) (w : World) (text : List Byte)
    (capacity : Nat) (r : ConversionRequest) (hmax : text.length < INT_MAX)
    (hcut : capacity < text.length + 4) :
    workerAnswer pf cd w ((intBytes pf text.length ++ text).take capacity) r =
      [ .sendEvent r.requestor false 0
          { type := SelectionNotify, display := w.display.id, requestor := r.requestor,
            selection := r.selection, target := r.target, property := None,
            time := r.time } ] := by
  obtain ⟨rest, hrest⟩ := get_clipboard_text_cut_frame pf text capacity hmax hcut
  have hrun := handler_empty_run pf cd w.display
    (selectionRequestOf w.display.id w.workerWindow r) [] 0 (le_refl 0)
  unfold workerAnswer own_x11_clipboard_step
  simp only [Worker.start, hrest, Option.getD_none, hrun]
  rfl

/-- A content whose frame does not fit the pipe: the worker finds fewer bytes
than the header announces, drops the content and refuses the request, and the
read returns no buffer, with `ENOTSUP`. -/
theorem write_then_read_oversize (pf : Platform) (cd : Converter) (w : World)
    (text : List Byte) (hw : w.WellFormed) (hmax : text.length < INT_MAX)
    (hcut : w.pipeCapacity < text.length + 4) :
    ∃ calls,
      writeThenRead pf cd w text text.length = .returned none none (some .ENOTSUP) calls := by
  obtain ⟨hnt, hns, hstore, hwin, hpid0, hpid1⟩ := hw
  have hmax2 : text.length < 2 ^ 31 := by
    unfold INT_MAX at hmax
    omega
  have hanswer := workerAnswer_cut_frame pf cd w text w.pipeCapacity
    { selection := XInternAtom w.display "CLIPBOARD" false,
      target := XInternAtom w.display "UTF8_STRING" true,
      property := XInternAtom w.display "TINYCLIP_STORE" false,
      requestor := w.readerWindow, time := CurrentTime } hmax hcut
  unfold writeThenRead
  simp only [write_to_clipboard_manager, if_true]
  rw [tiny_clipnwrite_first_call pf w.pipefds w.pid text text.length hpid0 hpid1]
  simp only [WriteOutcome.calls, pipeContents, writtenBytes_frame pf w.pipefds w.pid text hmax2]
  unfold tiny_clipread
  simp only [if_true]
  rw [if_neg hwin]
  simp only [hanswer]
  have hdeliver : deliver
      [ .sendEvent w.readerWindow false 0
          { type := SelectionNotify, display := w.display.id, requestor := w.readerWindow,
            selection := XInternAtom w.display "CLIPBOARD" false,
            target := XInternAtom w.display "UTF8_STRING" true,
            property := None, time := CurrentTime } ] w.readerWindow =
      [ .selectionNotify
          { type := SelectionNotify, display := w.display.id, requestor := w.readerWindow,
            selection := XInternAtom w.display "CLIPBOARD" false,
            target := XInternAtom w.display "UTF8_STRING" true,
            property := None, time := CurrentTime } ] := by
    simp [deliver, sentEvents]
  simp only [hdeliver, waitSelectionNotify, if_true]
  exact ⟨_, rfl⟩

/-- C1, as the code has it. In the scenario without a clipboard manager, with
one writer and its fresh worker, for every content of n bytes, 0 < n < INT_MAX,
that holds no NUL byte and whose frame of 4 + n bytes fits the pipe,
`tiny_clipnwrite` followed by `tiny_clipread` returns a buffer of the n
content bytes and a NUL terminator and reports the length n. -/
theorem write_then_read_round_trip (pf : Platform) (cd : Converter) (w : World)
    (text : List Byte) (hw : w.WellFormed) (hpos : 0 < text.length)
    (hmax : text.length < INT_MAX) (hfit : text.length + 4 ≤ w.pipeCapacity)
    (hnul : ∀ b ∈ text, b ≠ 0) :
    ∃ calls,
      writeThenRead pf cd w text text.length =
        .returned (some (text ++ [0])) (some text.length) none calls := by
  obtain ⟨hnt, hns, hstore, hwin, hpid0, hpid1⟩ := hw
  have hmax2 : text.length < 2 ^ 31 := by
    unfold INT_MAX at hmax
    omega
  have hanswer := workerAnswer_utf8 pf cd w text
    { selection := XInternAtom w.display "CLIPBOARD" false,
      target := XInternAtom w.display "UTF8_STRING" true,
      property := XInternAtom w.display "TINYCLIP_STORE" false,
      requestor := w.readerWindow, time := CurrentTime } hpos hmax rfl hnt hns
  unfold writeThenRead
  simp only [write_to_clipboard_manager, if_true]
  rw [tiny_clipnwrite_first_call pf w.pipefds w.pid text text.length hpid0 hpid1]
  simp only [WriteOutcome.calls,
    pipeContents_frame pf w.pipeCapacity w.pipefds w.pid text hmax2 hfit]
  unfold tiny_clipread
  simp only [if_true]
  rw [if_neg hwin]
  simp only [hanswer]
  have hdeliver : deliver
      [ .changeProperty w.readerWindow (XInternAtom w.display "TINYCLIP_STORE" false)
          (XInternAtom w.display "UTF8_STRING" true) 8 PropModeReplace (text ++ [0])
          text.length,
        .sendEvent w.readerWindow false 0
          { type := SelectionNotify, display := w.display.id, requestor := w.readerWindow,
            selection := XInternAtom w.display "CLIPBOARD" false,
            target := XInternAtom w.display "UTF8_STRING" true,
            property := XInternAtom w.display "TINYCLIP_STORE" false,
            time := CurrentTime } ] w.readerWindow =
      [ .selectionNotify
          { type := SelectionNotify, display := w.display.id, requestor := w.readerWindow,
            selection := XInternAtom w.display "CLIPBOARD" false,
            target := XInternAtom w.display "UTF8_STRING" true,
            property := XInternAtom w.display "TINYCLIP_STORE" false,
            time := CurrentTime } ] := by
    simp [deliver, sentEvents]
  have hvalue : propertyValue none w.readerWindow (XInternAtom w.display "TINYCLIP_STORE" false)
      [ .changeProperty w.readerWindow (XInternAtom w.display "TINYCLIP_STORE" false)
          (XInternAtom w.display "UTF8_STRING" true) 8 PropModeReplace (text ++ [0])
          text.length,
        .sendEvent w.readerWindow false 0
          { type := SelectionNotify, display := w.display.id, requestor := w.readerWindow,
            selection := XInternAtom w.display "CLIPBOARD" false,
            target := XInternAtom w.display "UTF8_STRING" true,
            property := XInternAtom w.display "TINYCLIP_STORE" false,
            time := CurrentTime } ] = some text := by
    simp [propertyValue, XCall.stored]
  have hcheck : ¬ (sizeAdd text.length 1 > INT_MAX) := by
    unfold sizeAdd INT_MAX at *
    rw [Nat.mod_eq_of_lt (by omega)]
    omega
  have hsize : sizeAdd text.length 1 = text.length + 1 := by
    unfold sizeAdd
    exact Nat.mod_eq_of_lt (by omega)
  have hbytes : toCInt text.length = text.length :=
    (tiny_clipread_length_check text.length (by omega)).2 hmax
  simp only [hdeliver, hvalue, waitSelectionNotify, xGetWindowProperty]
  rw [if_neg hstore]
  simp only [List.drop_zero, List.take_zero, List.length_nil, Nat.mul_zero, Nat.add_zero,
    Nat.sub_zero]
  rw [if_neg hcheck]
  simp only [hsize, hbytes, intToSize_natCast text.length hmax2, List.length_replicate]
  rw [if_neg (by omega)]
  have htake : List.take (4 * text.length) text = text :=
    List.take_of_length_le (by omega)
  simp only [htake, strncpy_text text hnul, writeAt_zeros]
  exact ⟨_, rfl⟩

theorem write_then_read_round_trip_witness :
    ∃ calls,
      writeThenRead lp64 identityConverter sampleWorld
          [84, 104, 105, 115, 32, 105, 115, 32, 97, 32, 116, 101, 115, 116, 46]
          ([84, 104, 105, 115, 32, 105, 115, 32, 97, 32, 116, 101, 115, 116, 46] :
            List Byte).length =
        .returned
          (some ([84, 104, 105, 115, 32, 105, 115, 32, 97, 32, 116, 101, 115, 116, 46] ++ [0]))
          (some
            ([84, 104, 105, 115, 32, 105, 115, 32, 97, 32, 116, 101, 115, 116, 46] :
              List Byte).length)
          none calls :=
  write_then_read_round_trip lp64 identityConverter sampleWorld
    [84, 104, 105, 115, 32, 105, 115, 32, 97, 32, 116, 101, 115, 116, 46]
    (by decide) (by decide) (by decide) (by decide) (by decide)

/-- C1, as the claim has it, fails for content with a NUL byte, for empty
content, and for content whose frame is larger than the pipe. Written `a`,
NUL, `b` (3 bytes), the read reports length 3 and returns `a` followed by NUL
bytes: the copy into the result stops at the first NUL. Written nothing
(0 bytes), the worker drops the frame and refuses the request, and the read
returns no buffer, with `ENOTSUP`. Written 70000 bytes `A` through a pipe of
65536 bytes, the worker reads the header and 65532 bytes where 70000 are
announced, drops the content and refuses the request, and the read returns no
buffer, with `ENOTSUP`. -/
theorem write_then_read_nul_empty_or_oversize :
    (∃ buffer calls,
      writeThenRead lp64 identityConverter sampleWorld [97, 0, 98] 3 =
        .returned (some buffer) (some 3) none calls ∧
      buffer.take 3 = [97, 0, 0] ∧ buffer.take 3 ≠ [97, 0, 98]) ∧
    (∃ calls,
      writeThenRead lp64 identityConverter sampleWorld [] 0 =
        .returned none none (some .ENOTSUP) calls) ∧
    (∃ calls,
      writeThenRead lp64 identityConverter sampleWorld (List.replicate 70000 65) 70000 =
        .returned none none (some .ENOTSUP) calls) := by
  refine ⟨⟨[97, 0, 0, 0], _, rfl, by decide, by decide⟩, ⟨_, rfl⟩, ?_⟩
  have h := write_then_read_oversize lp64 identityConverter sampleWorld
    (List.replicate 70000 65) (by decide)
    (by rw [List.length_replicate]; unfold INT_MAX; omega)
    (by rw [List.length_replicate]; decide)
  rw [List.length_replicate] at h
  exact h

/-! ## Frames in the pipe -/

/-- The path of `tiny_clipnwrite` for a live worker: after the liveness check
it writes the image of `len` and then `len` bytes of `text` to the pipe,
resets the failure counter and returns 0. -/
theorem tiny_clipnwrite_live_path (pf : Platform) (env : WriteEnv) (text : List Byte)
    (len : Int) (st : Supervisor) (hhandle : st.s_cb_pid ≠ 0)
    (hdisplay : env.XOpenDisplay 0 = true)
    (hbridge : env.write_to_clipboard_manager 0 = false) (halive : env.waitpid 0 = 0) :
    tiny_clipnwrite pf env text len st =
      .returned 0 none { st with tries := 0 }
        [.waitpid st.s_cb_pid 0, .write st.pipefds.2 (intBytes pf len) 4,
          .write st.pipefds.2 text (intToSize len)] := by
  simp [tiny_clipnwrite, tiny_clipnwrite_rec, hhandle, hdisplay, hbridge, halive]

/-- The frame of a content of n bytes, 0 < n < INT_MAX, from the writer to
the worker: the live-worker path of `tiny_clipnwrite` puts into the pipe the
4-byte native image of n and then the n bytes, and `get_clipboard_text` on a
pipe that starts with these bytes takes exactly them and leaves the content,
a NUL byte behind it, and the length n. -/
theorem pipe_frame_round_trip (pf : Platform) (capacity : Nat) (env : WriteEnv)
    (text : List Byte)
    (st : Supervisor) (hhandle : st.s_cb_pid ≠ 0) (hdisplay : env.XOpenDisplay 0 = true)
    (hbridge : env.write_to_clipboard_manager 0 = false) (halive : env.waitpid 0 = 0)
    (hpos : 0 < text.length) (hmax : text.length < INT_MAX)
    (hfit : text.length + 4 ≤ capacity) :
    ∃ calls,
      tiny_clipnwrite pf env text text.length st = .returned 0 none { st with tries := 0 } calls ∧
      calls.filterMap SysCall.written =
        [(st.pipefds.2, encodeNative pf 4 text.length), (st.pipefds.2, text)] ∧
      pipeContents capacity calls st.pipefds.2 = encodeNative pf 4 text.length ++ text ∧
      ∀ (rest : Pipe) (p_str : Option (List Byte)) (p_len : Int),
        get_clipboard_text pipeRead pf (pipeContents capacity calls st.pipefds.2 ++ rest)
            p_str p_len =
          .ok (rest, some (text ++ [0]), text.length) := by
  have hmax2 : text.length < 2 ^ 31 := by
    unfold INT_MAX at hmax
    omega
  have himage : intBytes pf (text.length : Int) = encodeNative pf 4 text.length := by
    unfold intBytes
    rw [Int.emod_eq_of_lt (by omega) (by omega)]
    rfl
  have hl := intBytes_length pf text.length
  have hwritten : List.filterMap SysCall.written
      [.waitpid st.s_cb_pid 0, .write st.pipefds.2 (intBytes pf text.length) 4,
        .write st.pipefds.2 text (intToSize text.length)] =
      [(st.pipefds.2, intBytes pf text.length), (st.pipefds.2, text)] := by
    simp [List.filterMap, SysCall.written, intToSize_natCast text.length hmax2, hl,
      List.take_of_length_le (le_of_eq hl)]
  have hpipe : pipeContents capacity
      [.waitpid st.s_cb_pid 0, .write st.pipefds.2 (intBytes pf text.length) 4,
        .write st.pipefds.2 text (intToSize text.length)] st.pipefds.2 =
      intBytes pf text.length ++ text := by
    have hbytes : writtenBytes
        [.waitpid st.s_cb_pid 0, .write st.pipefds.2 (intBytes pf text.length) 4,
          .write st.pipefds.2 text (intToSize text.length)] st.pipefds.2 =
        intBytes pf text.length ++ text := by
      unfold writtenBytes
      rw [hwritten]
      simp
    unfold pipeContents
    rw [hbytes]
    apply List.take_of_length_le
    simp only [List.length_append, hl]
    omega
  refine ⟨_, tiny_clipnwrite_live_path pf env text text.length st hhandle hdisplay hbridge
    halive, ?_, ?_, ?_⟩
  · rw [hwritten, himage]
  · rw [hpipe, himage]
  · intro rest p_str p_len
    rw [hpipe]
    exact get_clipboard_text_frame_append pf text rest hpos hmax p_str p_len

/-- C11, at a failing input. For a content of INT_MAX bytes the live-worker
path of `tiny_clipnwrite` writes the frame, the image of INT_MAX and then the
content, and returns 0; `get_clipboard_text` on a pipe that holds this frame
reads the length INT_MAX, and the size `*p_len + 1` of its buffer does not fit
`int`: the worker does not get the content. -/
theorem get_clipboard_text_longest_frame :
    tiny_clipnwrite lp64 aliveEnv (List.replicate (2 ^ 31 - 1) 65) (2 ^ 31 - 1)
        aliveSupervisor =
      .returned 0 none aliveSupervisor
        [.waitpid 4242 0, .write 6 [255, 255, 255, 127] 4,
          .write 6 (List.replicate (2 ^ 31 - 1) 65) (2 ^ 31 - 1)] ∧
    get_clipboard_text pipeRead lp64
        ([255, 255, 255, 127] ++ List.replicate (2 ^ 31 - 1) 65) none 0 =
      .error .outOfBounds := by
  constructor
  · rfl
  · decide

/-- C13. When the header read of `get_clipboard_text` returns something other
than 4 and is not a would-block (`EAGAIN`), or when the header is read, the
payload read is made (the advertised length plus one is a size in `int`) and
returns an error, zero or a count other than the advertised length, then
`get_clipboard_text` leaves `NULL` and length 0 whatever the worker held
before; the turn of the worker's loop changes nothing else, so the worker
does not terminate, and it answers the request with one `SelectionNotify`
whose property is `None`. -/
theorem get_clipboard_text_mismatch {σ : Type} (read : σ → Nat → IoRead × σ) (pf : Platform)
    (cd : Converter) (p_display : Display) (filedes : σ) (w : Worker)
    (e : XSelectionRequestEvent)
    (hbad :
      ((read filedes 4).1.ret ≠ 4 ∧
        ¬ ((read filedes 4).1.ret < 0 ∧ (read filedes 4).1.errno = some .EAGAIN)) ∨
      ((read filedes 4).1.ret = 4 ∧
        0 ≤ intOfBytes pf (read filedes 4).1.data + 1 ∧
        intOfBytes pf (read filedes 4).1.data + 1 ≤ INT_MAX ∧
        ((read (read filedes 4).2 (intToSize (intOfBytes pf (read filedes 4).1.data))).1.ret ≤ 0 ∨
          (read (read filedes 4).2 (intToSize (intOfBytes pf (read filedes 4).1.data))).1.ret ≠
            intOfBytes pf (read filedes 4).1.data))) :
    ∃ filedes2,
      get_clipboard_text read pf filedes w.cliptext w.textlen = .ok (filedes2, none, 0) ∧
      own_x11_clipboard_step read pf cd p_display filedes w (.selectionRequest e) =
        .ok (filedes2, { w with cliptext := none, textlen := 0 },
          [ .sendEvent e.requestor false 0
              { type := SelectionNotify, display := e.display, requestor := e.requestor,
                selection := e.selection, target := e.target, property := None,
                time := e.time } ]) := by
  have hstep : ∀ filedes2,
      get_clipboard_text read pf filedes w.cliptext w.textlen = .ok (filedes2, none, 0) →
      own_x11_clipboard_step read pf cd p_display filedes w (.selectionRequest e) =
        .ok (filedes2, { w with cliptext := none, textlen := 0 },
          [ .sendEvent e.requestor false 0
              { type := SelectionNotify, display := e.display, requestor := e.requestor,
                selection := e.selection, target := e.target, property := None,
                time := e.time } ]) := by
    intro filedes2 hget
    unfold own_x11_clipboard_step
    simp only [hget, Option.getD_none,
      handler_empty_run pf cd p_display e [] 0 (le_refl 0)]
  rcases hbad with ⟨hne, hblock⟩ | ⟨h4, hlow, hhigh, hpay⟩
  · have hget : get_clipboard_text read pf filedes w.cliptext w.textlen =
        .ok ((read filedes 4).2, none, 0) := by
      unfold get_clipboard_text
      simp only
      rw [if_neg hblock, if_pos (Or.inr hne)]
    exact ⟨_, hget, hstep _ hget⟩
  · have hget : get_clipboard_text read pf filedes w.cliptext w.textlen =
        .ok ((read (read filedes 4).2
          (intToSize (intOfBytes pf (read filedes 4).1.data))).2, none, 0) := by
      unfold get_clipboard_text
      simp only
      rw [if_neg (by rw [h4]; simp), if_neg (by rw [h4]; simp), if_neg (by omega), if_pos hpay]
    exact ⟨_, hget, hstep _ hget⟩

theorem get_clipboard_text_mismatch_witness :
    ∃ filedes2,
      get_clipboard_text scriptedRead lp64
          [{ ret := 4, errno := none, data := [2, 0, 0, 0] },
           { ret := 1, errno := none, data := [50] }]
          (some [97, 98, 99, 0]) 3 = .ok (filedes2, none, 0) ∧
      own_x11_clipboard_step scriptedRead lp64 identityConverter sampleDisplay
          [{ ret := 4, errno := none, data := [2, 0, 0, 0] },
           { ret := 1, errno := none, data := [50] }]
          { cliptext := some [97, 98, 99, 0], textlen := 3, s_clipowner_window := 5,
            terminate := false }
          (.selectionRequest (sampleRequest 301)) =
        .ok (filedes2,
          { cliptext := none, textlen := 0, s_clipowner_window := 5, terminate := false },
          [ .sendEvent 77 false 0
              { type := SelectionNotify, display := 1, requestor := 77, selection := 300,
                target := 301, property := None, time := 1234 } ]) :=
  get_clipboard_text_mismatch scriptedRead lp64 identityConverter sampleDisplay
    [{ ret := 4, errno := none, data := [2, 0, 0, 0] },
     { ret := 1, errno := none, data := [50] }]
    { cliptext := some [97, 98, 99, 0], textlen := 3, s_clipowner_window := 5,
      terminate := false }
    (sampleRequest 301)
    (Or.inr ⟨by decide, by decide, by decide, Or.inr (by decide)⟩)

/-- One frame per request. On a `SelectionRequest` the worker calls
`get_clipboard_text` once, and that reads one frame: when complete frames are
pending in the pipe, the first of them with a payload of n bytes,
0 < n < INT_MAX, it leaves the payload of the first, oldest frame (with a NUL
byte behind it) and its length, and the later frames stay in the pipe; this
buffer and length are what the handler is called with. -/
theorem get_clipboard_text_first_frame (pf : Platform) (cd : Converter) (p_display : Display)
    (first : List Byte) (later : List (List Byte)) (w : Worker) (e : XSelectionRequestEvent)
    (hpos : 0 < first.length) (hmax : first.length < INT_MAX) :
    get_clipboard_text pipeRead pf (pipeFrames pf (first :: later)) w.cliptext w.textlen =
      .ok (pipeFrames pf later, some (first ++ [0]), first.length) ∧
    own_x11_clipboard_step pipeRead pf cd p_display (pipeFrames pf (first :: later)) w
        (.selectionRequest e) =
      match handle_x11_selectionrequest pf cd p_display e (first ++ [0]) first.length with
      | .error f => .error f
      | .ok calls =>
        .ok (pipeFrames pf later,
          { w with cliptext := some (first ++ [0]), textlen := first.length }, calls) := by
  have hget := get_clipboard_text_frame_append pf first (pipeFrames pf later) hpos hmax
    w.cliptext w.textlen
  have hpipe : pipeFrames pf (first :: later) =
      intBytes pf first.length ++ first ++ pipeFrames pf later := rfl
  rw [hpipe]
  refine ⟨hget, ?_⟩
  unfold own_x11_clipboard_step
  simp only [hget, Option.getD_some]

theorem get_clipboard_text_first_frame_witness :
    get_clipboard_text pipeRead lp64 (pipeFrames lp64 ([97] :: [[98, 99]])) none 0 =
      .ok (pipeFrames lp64 [[98, 99]], some ([97] ++ [0]), ([97] : List Byte).length) ∧
    own_x11_clipboard_step pipeRead lp64 identityConverter sampleDisplay
        (pipeFrames lp64 ([97] :: [[98, 99]])) (Worker.start 5)
        (.selectionRequest (sampleRequest 301)) =
      match handle_x11_selectionrequest lp64 identityConverter sampleDisplay
          (sampleRequest 301) ([97] ++ [0]) ([97] : List Byte).length with
      | .error f => .error f
      | .ok calls =>
        .ok (pipeFrames lp64 [[98, 99]],
          { Worker.start 5 with cliptext := some ([97] ++ [0]),
                                textlen := ([97] : List Byte).length }, calls) :=
  get_clipboard_text_first_frame lp64 identityConverter sampleDisplay [97] [[98, 99]]
    (Worker.start 5) (sampleRequest 301) (by decide) (by decide)

/-- C14, at a failing input. After two writes to a live worker with no
request in between, `a` and then `b`, the pipe holds two frames. On the next
`SelectionRequest` `get_clipboard_text` leaves the payload `a` of the first
frame, not the payload `b` of the last frame written, which stays in the
pipe, and the worker answers the request with `a`; it is the request after
that which is answered with `b`. -/
theorem get_clipboard_text_oldest_of_two :
    pipeContents 65536
        ((tiny_clipnwrite lp64 aliveEnv [97] 1 aliveSupervisor).calls ++
          (tiny_clipnwrite lp64 aliveEnv [98] 1 aliveSupervisor).calls) 6 =
      pipeFrames lp64 [[97], [98]] ∧
    get_clipboard_text pipeRead lp64 (pipeFrames lp64 [[97], [98]]) none 0 =
      .ok (pipeFrames lp64 [[98]], some [97, 0], 1) ∧
    (¬ ∃ pipe, get_clipboard_text pipeRead lp64 (pipeFrames lp64 [[97], [98]]) none 0 =
      .ok (pipe, some [98, 0], 1)) ∧
    own_x11_clipboard_step pipeRead lp64 identityConverter sampleDisplay
        (pipeFrames lp64 [[97], [98]]) (Worker.start 5)
        (.selectionRequest (sampleRequest 301)) =
      .ok (pipeFrames lp64 [[98]],
        { cliptext := some [97, 0], textlen := 1, s_clipowner_window := 5, terminate := false },
        [ .changeProperty 77 305 301 8 PropModeReplace [97, 0] 1,
          .sendEvent 77 false 0
            { type := SelectionNotify, display := 1, requestor := 77, selection := 300,
              target := 301, property := 305, time := 1234 } ]) ∧
    own_x11_clipboard_step pipeRead lp64 identityConverter sampleDisplay
        (pipeFrames lp64 [[98]])
        { cliptext := some [97, 0], textlen := 1, s_clipowner_window := 5, terminate := false }
        (.selectionRequest (sampleRequest 301)) =
      .ok ([],
        { cliptext := some [98, 0], textlen := 1, s_clipowner_window := 5, terminate := false },
        [ .changeProperty 77 305 301 8 PropModeReplace [98, 0] 1,
          .sendEvent 77 false 0
            { type := SelectionNotify, display := 1, requestor := 77, selection := 300,
              target := 301, property := 305, time := 1234 } ]) := by
  refine ⟨by decide, by decide, ?_, by decide, by decide⟩
  rintro ⟨pipe, h⟩
  have h2 : get_clipboard_text pipeRead lp64 (pipeFrames lp64 [[97], [98]]) none 0 =
      .ok (pipeFrames lp64 [[98]], some [97, 0], 1) := by decide
  rw [h2] at h
  simp at h

/-! ## The manager bridge -/

/-- A turn of the main loop on an event other than `DestroyNotify` keeps the
terminate flag and the window marker, and on an event that is no
`SelectionRequest` either it keeps all variables and the pipe. -/
theorem own_x11_clipboard_step_keeps {σ : Type} (read : σ → Nat → IoRead × σ)
    (pf : Platform) (cd : Converter) (p_display : Display) (filedes filedes2 : σ)
    (w w2 : Worker) (evt : XEvent) (answer : List XCall)
    (hstep : own_x11_clipboard_step read pf cd p_display filedes w evt =
      .ok (filedes2, w2, answer))
    (hevt : evt.isDestroyNotify = false) :
    w2.terminate = w.terminate ∧ w2.s_clipowner_window = w.s_clipowner_window ∧
    (evt.isSelectionRequest = false → w2 = w ∧ filedes2 = filedes) := by
  cases evt with
  | destroyNotify => simp [XEvent.isDestroyNotify] at hevt
  | selectionRequest e =>
    unfold own_x11_clipboard_step at hstep
    simp only at hstep
    split at hstep
    · cases hstep
    · split at hstep
      · cases hstep
      · cases hstep
        exact ⟨rfl, rfl, fun h => by simp [XEvent.isSelectionRequest] at h⟩
  | selectionClear =>
    simp only [own_x11_clipboard_step, Except.ok.injEq, Prod.mk.injEq] at hstep
    obtain ⟨h1, h2, _⟩ := hstep
    subst h1 h2
    exact ⟨rfl, rfl, fun _ => ⟨rfl, rfl⟩⟩
  | selectionNotify e =>
    simp only [own_x11_clipboard_step, Except.ok.injEq, Prod.mk.injEq] at hstep
    obtain ⟨h1, h2, _⟩ := hstep
    subst h1 h2
    exact ⟨rfl, rfl, fun _ => ⟨rfl, rfl⟩⟩
  | other t =>
    simp only [own_x11_clipboard_step, Except.ok.injEq, Prod.mk.injEq] at hstep
    obtain ⟨h1, h2, _⟩ := hstep
    subst h1 h2
    exact ⟨rfl, rfl, fun _ => ⟨rfl, rfl⟩⟩

end TinyClipboard
